import Mathlib

/-!
Shallow embedding of the diff-analysis and intelligence-scoring subsystem of
the commit-wizard repository (src/commit-wizard-core), together with proofs
about the frozen claims.

Modelling conventions:
* Rust `&str` / `String` values are modelled by Lean `String`; the Rust
  string primitives (`lines`, `contains`, `splitn`, `trim`, …) are re-defined
  below on `List Char` with `String` wrappers, following Rust semantics.
* Rust `char` classification functions (`is_uppercase`, `is_alphanumeric`,
  `is_whitespace`, `to_lowercase`) are Unicode-aware; they are modelled by
  Lean's ASCII `Char.isUpper`, `Char.isAlphanum`, `Char.isWhitespace`,
  `Char.toLower`, which agree with Rust on ASCII input.
* Rust `usize` is modelled by `Nat` (with `saturating_sub` as truncated `-`),
  and `f32` scores/impacts are modelled by exact rationals `ℚ`; the constants
  0.3, 0.7, 2.5, … are written as the corresponding rationals.
* `str::len()` (a byte count) is modelled by the UTF-8 byte size.
* HashMap/HashSet iteration (whose order Rust leaves unspecified) is
  modelled by association lists in first-insertion order.
-/

namespace CommitWizard

/-- Rust `str::trim_start` on a character list (`char::is_whitespace`). -/
def trimStartL (l : List Char) : List Char := l.dropWhile Char.isWhitespace

/-- Rust `str::trim_end` on a character list. -/
def trimEndL (l : List Char) : List Char := (l.reverse.dropWhile Char.isWhitespace).reverse

/-- Rust `str::trim` on a character list. -/
def trimL (l : List Char) : List Char := trimEndL (trimStartL l)

/-- Rust `str::trim`. -/
def rustTrim (s : String) : String := ⟨trimL s.data⟩

/-- Rust `str::to_lowercase` (ASCII model). -/
def rustToLower (s : String) : String := ⟨s.data.map Char.toLower⟩

/-- Whether `pat` occurs as a contiguous sublist of `s` (Rust `str::contains`). -/
def containsL (s pat : List Char) : Bool :=
  match s with
  | [] => pat.isEmpty
  | _ :: rest => pat.isPrefixOf s || containsL rest pat

/-- Rust `str::contains` with a string pattern. -/
def rustContains (s pat : String) : Bool := containsL s.data pat.data

/-- Rust `str::contains` with a char pattern. -/
def rustContainsChar (s : String) (c : Char) : Bool := s.data.contains c

/-- Rust `str::starts_with`. -/
def rustStartsWith (s pat : String) : Bool := pat.data.isPrefixOf s.data

/-- Rust `str::ends_with`. -/
def rustEndsWith (s pat : String) : Bool := pat.data.isSuffixOf s.data

/-- Rust `str::ends_with` with a char pattern. -/
def rustEndsWithChar (s : String) (c : Char) : Bool := s.data.getLast? = some c

/-- Rust `str::len` — the UTF-8 byte length. -/
def rustLen (s : String) : Nat := (s.data.map Char.utf8Size).sum

/-- Split a character list at every newline; never returns `[]`. -/
def splitNlL (cs : List Char) : List (List Char) :=
  cs.foldr
    (fun c acc =>
      if c = '\n' then [] :: acc
      else
        match acc with
        | [] => [[c]]
        | h :: t => (c :: h) :: t)
    [[]]

/-- Strip one trailing carriage return (Rust `lines` handles `\r\n`). -/
def stripCrL (l : List Char) : List Char :=
  if l.getLast? = some '\r' then l.dropLast else l

/-- Rust `str::lines` on a character list: split at `'\n'`, dropping the
final empty segment produced by a trailing newline, stripping `'\r'`. -/
def rustLinesL (cs : List Char) : List (List Char) :=
  if cs = [] then []
  else
    let ps := splitNlL cs
    let ps := if ps.getLast? = some [] then ps.dropLast else ps
    ps.map stripCrL

/-- Rust `str::lines`, as a list of `String`. -/
def rustLines (s : String) : List String := (rustLinesL s.data).map (fun l => ⟨l⟩)

/-- First occurrence split: `splitFirstL pat s = some (before, after)` when
`pat` occurs in `s` (matching Rust `str::find` + slicing); `pat` is required
non-empty by all call sites. -/
def splitFirstL (pat : List Char) : List Char → Option (List Char × List Char)
  | [] => if pat = [] then some ([], []) else none
  | c :: rest =>
    if pat.isPrefixOf (c :: rest) then some ([], (c :: rest).drop pat.length)
    else
      match splitFirstL pat rest with
      | none => none
      | some (b, a) => some (c :: b, a)

/-- Rust `str::splitn(2, pat)` collected into a list (one or two elements). -/
def rustSplitn2 (s pat : String) : List String :=
  match splitFirstL pat.data s.data with
  | none => [s]
  | some (b, a) => [⟨b⟩, ⟨a⟩]

/-- Rust `str::splitn(2, ch)` with a char pattern. -/
def rustSplitn2Char (s : String) (c : Char) : List String := rustSplitn2 s ⟨[c]⟩

/-- Rust `str::find(char)` — index (in characters) of the first occurrence. -/
def rustFindChar (s : String) (c : Char) : Option Nat := s.data.indexOf? c

/-- Rust `str::split(ch)` — split at every occurrence of a char. -/
def splitCharL (c : Char) (cs : List Char) : List (List Char) :=
  cs.foldr
    (fun x acc =>
      if x = c then [] :: acc
      else
        match acc with
        | [] => [[x]]
        | h :: t => (x :: h) :: t)
    [[]]

/-- Rust `str::split(ch)` as strings. -/
def rustSplitChar (s : String) (c : Char) : List String :=
  (splitCharL c s.data).map (fun l => ⟨l⟩)

/-- Rust `str::split_whitespace`: split at whitespace runs, no empties. -/
def rustSplitWhitespace (s : String) : List String :=
  ((splitCharL ' ' (s.data.map (fun c => if c.isWhitespace then ' ' else c))).filter
      (fun l => !l.isEmpty)).map (fun l => ⟨l⟩)

/-- Rust `str::trim_start_matches(char)`: repeatedly strip a leading char. -/
def trimStartMatchesCharL (c : Char) (l : List Char) : List Char :=
  l.dropWhile (fun x => x = c)

/-- Rust `str::trim_end_matches(char)`: repeatedly strip a trailing char. -/
def trimEndMatchesCharL (c : Char) (l : List Char) : List Char :=
  (l.reverse.dropWhile (fun x => x = c)).reverse

/-- Rust `str::trim_matches(char)`. -/
def rustTrimMatchesChar (s : String) (c : Char) : String :=
  ⟨trimEndMatchesCharL c (trimStartMatchesCharL c s.data)⟩

/-- Rust `str::trim_matches` with a char-set predicate. -/
def rustTrimMatchesPred (s : String) (p : Char → Bool) : String :=
  ⟨((s.data.dropWhile p).reverse.dropWhile p).reverse⟩

/-- Repeatedly strip a leading string pattern (Rust `trim_start_matches(str)`). -/
def trimStartMatchesStrL (pat l : List Char) : List Char :=
  if h : pat ≠ [] ∧ pat.isPrefixOf l then
    trimStartMatchesStrL pat (l.drop pat.length)
  else l
  termination_by l.length
  decreasing_by
    simp only [List.length_drop]
    have hp : 0 < pat.length := List.length_pos.mpr h.1
    have hl : pat.length ≤ l.length :=
      (List.IsPrefix.length_le (List.isPrefixOf_iff_prefix.mp h.2))
    omega

/-- Repeatedly strip a trailing string pattern (Rust `trim_end_matches(str)`). -/
def trimEndMatchesStrL (pat : List Char) (l : List Char) : List Char :=
  (trimStartMatchesStrL pat.reverse l.reverse).reverse

/-- Rust `str::trim_start_matches(str)`. -/
def rustTrimStartMatchesStr (s pat : String) : String := ⟨trimStartMatchesStrL pat.data s.data⟩

/-- Rust `str::trim_end_matches(str)`. -/
def rustTrimEndMatchesStr (s pat : String) : String := ⟨trimEndMatchesStrL pat.data s.data⟩

/-- Rust `str::replace` (non-overlapping, left to right). -/
def replaceL (pat tgt l : List Char) : List Char :=
  match l with
  | [] => []
  | c :: rest =>
    if h : pat ≠ [] ∧ pat.isPrefixOf (c :: rest) then
      tgt ++ replaceL pat tgt ((c :: rest).drop pat.length)
    else c :: replaceL pat tgt rest
  termination_by l.length
  decreasing_by
    · simp only [List.length_drop]
      have hp : 0 < pat.length := List.length_pos.mpr h.1
      simp only [List.length_cons]
      omega
    · simp

/-- Rust `str::replace`. -/
def rustReplace (s pat tgt : String) : String := ⟨replaceL pat.data tgt.data s.data⟩

/-- Join lines with `'\n'` (Rust `Vec::join("\n")` after `lines()`). -/
def joinNlL : List (List Char) → List Char
  | [] => []
  | [x] => x
  | x :: y :: xs => x ++ '\n' :: joinNlL (y :: xs)

/-- Join a list of strings with newlines. -/
def joinNl (ls : List String) : String := ⟨joinNlL (ls.map String.data)⟩

/-- Join a list of strings with a separator (Rust `join`). -/
def joinSep (sep : String) : List String → String
  | [] => ""
  | [x] => x
  | x :: y :: xs => x ++ sep ++ joinSep sep (y :: xs)

/-- Insert an element into a list already sorted by `r`. -/
def insertSortedBy (r : α → α → Bool) (x : α) : List α → List α
  | [] => [x]
  | y :: ys => if r x y then x :: y :: ys else y :: insertSortedBy r x ys

/-- Insertion sort with comparator `r` (`r x y` = "x may come before y").
Rust's `sort`/`sort_by` are unstable sorts whose exact output order among
ties is unspecified; this sorts by the same comparator. -/
def sortBy (r : α → α → Bool) : List α → List α
  | [] => []
  | x :: xs => insertSortedBy r x (sortBy r xs)

/-! ### Data model (src/commit-wizard-core/src/git.rs) -/

/-- `FileType` — categorize files by their purpose. -/
inductive FileType where
  | SourceCode
  | Test
  | Documentation
  | Config
  | Build
  | Other
  deriving DecidableEq, Repr, BEq

/-- `ChangeHint` — hints about the nature of changes. -/
inductive ChangeHint where
  | BugFix
  | ErrorHandling
  | Refactor
  | NewFeature
  | Performance
  | Documentation
  | Dependencies
  | NewFunction
  | NewStruct
  | NewEnum
  | NewModule
  | MajorAddition
  | MinorTweak
  deriving DecidableEq, Repr, BEq

/-- `ModifiedFile` — information about a modified file in the git diff. -/
structure ModifiedFile where
  path : String
  added_lines : Nat
  removed_lines : Nat
  diff_content : String
  file_type : FileType
  change_hints : List ChangeHint
  deriving DecidableEq, Repr

/-- `DiffInfo` — overall diff information from the repository. -/
structure DiffInfo where
  files : List ModifiedFile
  summary : String
  deriving DecidableEq, Repr

/-! ### File classifier (git.rs, `classify_file_type`) -/

/-- `classify_file_type` — classify file type based on path and extension.
A priority-ordered chain: Test, then Documentation, Config, Build,
SourceCode, defaulting to Other. -/
def classify_file_type (path : String) : FileType :=
  let path_lower := rustToLower path
  -- test files (multi-language)
  if rustContains path_lower "test"
      || rustContains path_lower "spec"
      || rustEndsWith path_lower ".test.js"
      || rustEndsWith path_lower ".spec.js"
      || rustEndsWith path_lower ".test.ts"
      || rustEndsWith path_lower ".spec.ts"
      || rustEndsWith path_lower "tests.cs"
      || rustEndsWith path_lower "test.cs"
      || rustContains path_lower "__tests__"
      || rustContains path_lower ".tests/"
      || rustEndsWith path_lower "_test.py"
      || rustEndsWith path_lower "_test.rs" then
    FileType.Test
  -- documentation
  else if rustEndsWith path_lower ".md"
      || rustEndsWith path_lower ".txt"
      || rustEndsWith path_lower ".rst"
      || rustContains path_lower "readme"
      || rustContains path_lower "doc"
      || rustEndsWith path_lower ".adoc" then
    FileType.Documentation
  -- config files (multi-language/platform)
  else if rustEndsWith path_lower ".json"
      || rustEndsWith path_lower ".yaml"
      || rustEndsWith path_lower ".yml"
      || rustEndsWith path_lower ".xml"
      || rustEndsWith path_lower ".ini"
      || rustEndsWith path_lower ".conf"
      || rustEndsWith path_lower ".config"
      || rustContains path_lower ".env"
      || rustEndsWith path_lower "appsettings.json"
      || rustContains path_lower "web.config"
      || rustEndsWith path_lower ".toml" then
    FileType.Config
  -- build files (multi-language)
  else if rustContains path_lower "package.json"
      || rustContains path_lower "package-lock.json"
      || rustContains path_lower "yarn.lock"
      || rustContains path_lower "pnpm-lock.yaml"
      || rustEndsWith path_lower ".csproj"
      || rustEndsWith path_lower ".sln"
      || rustEndsWith path_lower ".props"
      || rustEndsWith path_lower ".targets"
      || rustContains path_lower "cargo"
      || rustContains path_lower "makefile"
      || rustContains path_lower "dockerfile"
      || rustEndsWith path_lower ".lock"
      || rustContains path_lower "webpack"
      || rustContains path_lower "vite.config"
      || rustContains path_lower "rollup.config" then
    FileType.Build
  -- source code (multi-language)
  else if rustEndsWith path_lower ".cs"
      || rustEndsWith path_lower ".vb"
      || rustEndsWith path_lower ".js"
      || rustEndsWith path_lower ".jsx"
      || rustEndsWith path_lower ".ts"
      || rustEndsWith path_lower ".tsx"
      || rustEndsWith path_lower ".vue"
      || rustEndsWith path_lower ".svelte"
      || rustEndsWith path_lower ".css"
      || rustEndsWith path_lower ".scss"
      || rustEndsWith path_lower ".sass"
      || rustEndsWith path_lower ".less"
      || rustEndsWith path_lower ".html"
      || rustEndsWith path_lower ".htm"
      || rustEndsWith path_lower ".razor"
      || rustEndsWith path_lower ".cshtml"
      || rustEndsWith path_lower ".py"
      || rustEndsWith path_lower ".rs"
      || rustEndsWith path_lower ".go"
      || rustEndsWith path_lower ".java"
      || rustEndsWith path_lower ".cpp"
      || rustEndsWith path_lower ".c"
      || rustEndsWith path_lower ".h"
      || rustEndsWith path_lower ".php" then
    FileType.SourceCode
  else FileType.Other

/-! ### Change hints (git.rs, `analyse_change_hints`) -/

/-- The hint accumulation of `analyse_change_hints` for a non-new file (its
body before the final NewFeature fallback).  The Rust function pushes hints
into a mutable `Vec` in a fixed order; each `let hints := hints ++ …` step
below mirrors one push site.  The Unicode-safe slicing that removes the
leading `'+'` of an added line amounts to dropping the line's first
character. -/
def analyse_change_hints_raw (content : String) : List ChangeHint :=
    let content_lower := rustToLower content
    let added_lines : List String :=
      ((rustLines content).filter (fun l => rustStartsWith l "+")).map
        (fun l => ⟨l.data.drop 1⟩)
    let added_content := rustToLower (joinNl added_lines)
    let removed_lines := (rustLines content).filter (fun l => rustStartsWith l "-")
    let additions_count := added_lines.length
    let removals_count := removed_lines.length
    let net_additions := additions_count - removals_count
    let hints : List ChangeHint := []
    -- C# patterns
    let hints := hints ++
      (if rustContains added_content "public class "
          || rustContains added_content "class "
          || rustContains added_content "public interface "
          || rustContains added_content "interface "
          || rustContains added_content "public record "
          || rustContains added_content "record " then
        [ChangeHint.NewStruct, ChangeHint.NewFeature] else [])
    let hints := hints ++
      (if rustContains added_content "public enum " || rustContains added_content "enum " then
        [ChangeHint.NewEnum, ChangeHint.NewFeature] else [])
    -- JavaScript/TypeScript patterns
    let hints := hints ++
      (if rustContains added_content "export class "
          || rustContains added_content "class "
          || rustContains added_content "export interface "
          || rustContains added_content "interface "
          || rustContains added_content "export type "
          || rustContains added_content "type " then
        [ChangeHint.NewStruct, ChangeHint.NewFeature] else [])
    -- function patterns (multi-language)
    let hints := hints ++
      (if rustContains added_content "public "
          || rustContains added_content "function "
          || rustContains added_content "const "
          || rustContains added_content "=> "
          || rustContains added_content "def "
          || rustContains added_content "fn "
          || rustContains added_content "pub fn" then
        [ChangeHint.NewFunction] ++
          (if 10 < net_additions then [ChangeHint.NewFeature] else [])
      else [])
    -- module/namespace patterns
    let hints := hints ++
      (if rustContains added_content "namespace "
          || rustContains added_content "module "
          || rustContains added_content "export "
          || rustContains added_content "mod " then
        [ChangeHint.NewModule, ChangeHint.NewFeature] else [])
    -- CSS patterns for new styles
    let hints := hints ++
      (if rustContains added_content "."
          && (rustContains added_content "\x7b" || rustContains added_content "\x7d")
          && 5 < net_additions then
        [ChangeHint.NewFeature] else [])
    -- major addition vs minor tweak
    let hints :=
      if 20 < net_additions then
        let hints := hints ++ [ChangeHint.MajorAddition]
        if !hints.contains ChangeHint.NewFeature then hints ++ [ChangeHint.NewFeature]
        else hints
      else if net_additions ≤ 5
          && !(hints.any (fun h =>
                h = ChangeHint.NewStruct || h = ChangeHint.NewEnum
                  || h = ChangeHint.NewFunction || h = ChangeHint.NewModule)) then
        hints ++ [ChangeHint.MinorTweak]
      else hints
    -- bug fix indicators
    let hints := hints ++
      (if (rustContains content_lower "fix"
            || rustContains content_lower "bug"
            || rustContains content_lower "error"
            || rustContains content_lower "issue"
            || rustContains content_lower "problem"
            || rustContains content_lower "crash")
          && !hints.contains ChangeHint.MajorAddition then
        [ChangeHint.BugFix] else [])
    -- error handling
    let hints := hints ++
      (if rustContains added_content "result"
          || rustContains added_content "option"
          || rustContains added_content "unwrap"
          || rustContains added_content "expect"
          || rustContains added_content "context" then
        [ChangeHint.ErrorHandling] else [])
    -- refactoring indicators
    let hints := hints ++
      (if (rustContains content_lower "refactor"
            || rustContains content_lower "rename"
            || rustContains content_lower "move"
            || rustContains content_lower "extract"
            || rustContains content_lower "cleanup")
          && !hints.contains ChangeHint.MajorAddition then
        [ChangeHint.Refactor] else [])
    -- performance indicators
    let hints := hints ++
      (if rustContains content_lower "perf"
          || rustContains content_lower "performance"
          || rustContains content_lower "optimize"
          || rustContains content_lower "speed"
          || rustContains content_lower "cache"
          || rustContains content_lower "async" then
        [ChangeHint.Performance] else [])
    -- dependency changes (multi-platform)
    let hints := hints ++
      (if (rustContains content_lower "dependencies"
            || rustContains content_lower "packages"
            || rustContains content_lower "using "
            || rustContains content_lower "import "
            || rustContains content_lower "require("
            || rustContains content_lower "from ")
          && (rustContains content "package.json"
            || rustContains content "Cargo.toml"
            || rustContains content ".csproj"
            || rustContains content "requirements.txt"
            || rustContains added_content "using "
            || rustContains added_content "import ") then
        [ChangeHint.Dependencies] else [])
    -- documentation changes
    let hints := hints ++
      (if rustContains added_content "///"
          || rustContains added_content "/**"
          || (rustContains content_lower "doc" && rustContains added_content "//") then
        [ChangeHint.Documentation] else [])
    hints

/-- `analyse_change_hints` — analyse change hints from diff content: new
files short-circuit to NewFeature + MajorAddition; otherwise the hints
accumulated by `analyse_change_hints_raw` (the function body before the
final fallback), defaulting to NewFeature when no specific hints were
found. -/
def analyse_change_hints (content : String) (is_new_file : Bool) : List ChangeHint :=
  if is_new_file then
    [ChangeHint.NewFeature, ChangeHint.MajorAddition]
  else
    let hints := analyse_change_hints_raw content
    if hints.isEmpty then [ChangeHint.NewFeature] else hints

/-! ### Pattern structures (src/commit-wizard-core/src/ai/patterns.rs) -/

/-- `PatternType` — the closed enumeration of detected signals. -/
inductive PatternType where
  | NewFilePattern
  | MassModification
  | CrossLayerChange
  | InterfaceEvolution
  | ArchitecturalShift
  | ConfigurationDrift
  | DependencyUpdate
  | RefactoringPattern
  | FeatureAddition
  | BugFixPattern
  | TestEvolution
  | DocumentationUpdate
  | StyleNormalization
  | PerformanceTuning
  | SecurityHardening
  | CiChange
  | Deprecation
  | SecurityFix
  deriving DecidableEq, Repr, BEq

/-- `Pattern` — one detected signal; the `f32` impact is modelled as `ℚ`. -/
structure Pattern where
  pattern_type : PatternType
  description : String
  impact : ℚ
  files_affected : List String
  deriving DecidableEq, Repr

/-! ### Intelligence analysis (src/commit-wizard-core/src/ai/intelligence.rs) -/

/-- `FileAnalysis` — helper structure for file analysis.  The Rust `HashMap`
groupings are modelled as association lists in first-insertion key order. -/
structure FileAnalysis where
  new_files : List String
  modified_files : List String
  by_extension : List (String × List String)
  by_directory : List (String × List String)
  deriving DecidableEq, Repr

/-- `ContentAnalysis` — helper structure for content analysis. -/
structure ContentAnalysis where
  new_functions : Nat
  new_classes : Nat
  has_bug_fix_indicators : Bool
  has_performance_indicators : Bool
  deriving DecidableEq, Repr

/-- `RefactoringSignals` — helper structure for refactoring detection. -/
structure RefactoringSignals where
  is_refactoring : Bool
  description : String
  files : List String
  deriving DecidableEq, Repr

/-- `HashMap::entry(k).or_default().push(v)` on an association list. -/
def assocPush (m : List (String × List String)) (k v : String) :
    List (String × List String) :=
  if m.any (fun e => e.1 = k) then
    m.map (fun e => if e.1 = k then (e.1, e.2 ++ [v]) else e)
  else m ++ [(k, [v])]

/-- `analyse_file_metadata` — analyse file metadata to understand overall
structure.  `path.split('.').next_back()` is the last '.'-separated segment
and `path.rsplit('/').nth(1)` is the parent directory name, when present. -/
def analyse_file_metadata (diff_info : DiffInfo) : FileAnalysis :=
  diff_info.files.foldl
    (fun analysis file =>
      let analysis :=
        if file.removed_lines = 0 ∧ 10 < file.added_lines then
          { analysis with new_files := analysis.new_files ++ [file.path] }
        else
          { analysis with modified_files := analysis.modified_files ++ [file.path] }
      let analysis :=
        match (rustSplitChar file.path '.').getLast? with
        | some ext => { analysis with by_extension := assocPush analysis.by_extension ext file.path }
        | none => analysis
      match ((rustSplitChar file.path '/').reverse).get? 1 with
      | some dir => { analysis with by_directory := assocPush analysis.by_directory dir file.path }
      | none => analysis)
    ⟨[], [], [], []⟩

/-- Insert into a `HashSet` modelled as a duplicate-free list. -/
def insertSet (s : List String) (x : String) : List String :=
  if s.contains x then s else s ++ [x]

/-- `detect_layers` — detect architectural layers.  The Rust `HashSet` is
modelled as a list collected in insertion order over the (association-list
ordered) directory keys. -/
def detect_layers (analysis : FileAnalysis) : List String :=
  analysis.by_directory.foldl
    (fun layers e =>
      let dir_lower := rustToLower e.1
      let layers :=
        if rustContains dir_lower "controller" || rustContains dir_lower "api"
            || rustContains dir_lower "endpoint" then insertSet layers "api" else layers
      let layers :=
        if rustContains dir_lower "service" || rustContains dir_lower "business"
            || rustContains dir_lower "domain" then insertSet layers "service" else layers
      let layers :=
        if rustContains dir_lower "model" || rustContains dir_lower "entity"
            || rustContains dir_lower "schema" then insertSet layers "model" else layers
      let layers :=
        if rustContains dir_lower "view" || rustContains dir_lower "component"
            || rustContains dir_lower "ui" then insertSet layers "ui" else layers
      let layers :=
        if rustContains dir_lower "test" || rustContains dir_lower "spec" then
          insertSet layers "test" else layers
      if rustContains dir_lower "config" || rustContains dir_lower "settings" then
        insertSet layers "configuration" else layers)
    []

/-- `analyse_content` — analyse content for patterns. -/
def analyse_content (diff_content : String) : ContentAnalysis :=
  let content_lower := rustToLower diff_content
  let new_functions :=
    (((rustLines diff_content).filter (fun line => rustStartsWith line "+")).filter
      (fun line =>
        rustContains line "fn " || rustContains line "function " || rustContains line "def "
          || rustContains line "public " || rustContains line "private "
          || rustContains line "protected ")).length
  let new_classes :=
    (((rustLines diff_content).filter (fun line => rustStartsWith line "+")).filter
      (fun line =>
        rustContains line "class " || rustContains line "struct "
          || rustContains line "interface " || rustContains line "enum ")).length
  let has_bug_fix_indicators :=
    rustContains content_lower "fix" || rustContains content_lower "bug"
      || rustContains content_lower "error" || rustContains content_lower "issue"
      || rustContains content_lower "problem"
  let has_performance_indicators :=
    rustContains content_lower "optimiz" || rustContains content_lower "performance"
      || rustContains content_lower "speed" || rustContains content_lower "cache"
      || rustContains content_lower "async"
  ⟨new_functions, new_classes, has_bug_fix_indicators, has_performance_indicators⟩

/-- `analyse_file_content_universal` — per-file universal content patterns. -/
def analyse_file_content_universal (file : ModifiedFile) : List Pattern :=
  let ca := analyse_content file.diff_content
  (if 3 ≤ ca.new_functions ∨ 1 ≤ ca.new_classes then
    [{ pattern_type := PatternType.FeatureAddition,
       description := "significant new functionality (" ++ toString ca.new_functions
         ++ " functions, " ++ toString ca.new_classes ++ " classes)",
       impact := 8/10,
       files_affected := [file.path] }]
  else []) ++
  (if ca.has_bug_fix_indicators ∧ 0 < file.removed_lines then
    [{ pattern_type := PatternType.BugFixPattern,
       description := "bug fix indicators detected",
       impact := 6/10,
       files_affected := [file.path] }]
  else []) ++
  (if ca.has_performance_indicators then
    [{ pattern_type := PatternType.PerformanceTuning,
       description := "performance improvements detected",
       impact := 7/10,
       files_affected := [file.path] }]
  else [])

/-- `detect_config_files` — detect configuration files. -/
def detect_config_files (analysis : FileAnalysis) : List String :=
  let config_extensions := ["json", "yaml", "yml", "toml", "ini", "conf", "config", "env"]
  analysis.by_extension.foldl
    (fun acc e => if config_extensions.contains e.1 then acc ++ e.2 else acc) []

/-- `detect_dependency_files` — detect dependency files. -/
def detect_dependency_files (analysis : FileAnalysis) : List String :=
  analysis.by_extension.foldl
    (fun acc e =>
      acc ++ e.2.filter (fun file =>
        let file_lower := rustToLower file
        rustContains file_lower "package.json" || rustContains file_lower "cargo.toml"
          || rustContains file_lower "requirements.txt" || rustContains file_lower "pom.xml"
          || rustContains file_lower "build.gradle" || rustContains file_lower "gemfile"
          || rustContains file_lower "pipfile" || rustEndsWith file_lower ".lock"))
    []

/-- `detect_test_files` — detect test files among the modified files. -/
def detect_test_files (analysis : FileAnalysis) : List String :=
  analysis.modified_files.filter (fun file =>
    let file_lower := rustToLower file
    rustContains file_lower "test" || rustContains file_lower "spec")

/-- `detect_doc_files` — detect documentation files. -/
def detect_doc_files (analysis : FileAnalysis) : List String :=
  let doc_extensions := ["md", "rst", "txt", "adoc"]
  analysis.by_extension.foldl
    (fun acc e => if doc_extensions.contains e.1 then acc ++ e.2 else acc) []

/-- `detect_ci_files` — detect ci/cd files. -/
def detect_ci_files (analysis : FileAnalysis) : List String :=
  (analysis.modified_files ++ analysis.new_files).filter (fun file =>
    let file_lower := rustToLower file
    rustContains file_lower ".github/workflows" || rustContains file_lower ".gitlab-ci"
      || rustContains file_lower "jenkinsfile" || rustContains file_lower ".circleci"
      || rustContains file_lower "azure-pipelines" || rustContains file_lower ".travis")

/-- `detect_style_changes` — many small changes across multiple files.  The
`f32` average is modelled by exact rational division (for an empty file list
the Rust NaN comparison and the rational `0 < 10` differ, but the conjunct
`files.len() > 3` makes both sides `false`). -/
def detect_style_changes (diff_info : DiffInfo) : Bool :=
  let total : Nat := (diff_info.files.map (fun f => f.added_lines + f.removed_lines)).sum
  let avg : ℚ := (total : ℚ) / (diff_info.files.length : ℚ)
  decide (avg < 10) && decide (3 < diff_info.files.length)

/-- `detect_deprecation_patterns` — detect deprecation markers. -/
def detect_deprecation_patterns (diff_info : DiffInfo) : List String :=
  (diff_info.files.filter (fun file =>
    let content_lower := rustToLower file.diff_content
    rustContains content_lower "@deprecated" || rustContains content_lower "deprecated"
      || (decide (10 < file.removed_lines) && rustContains content_lower "export"))).map
    (fun f => f.path)

/-- `detect_security_patterns` — detect security-related changes. -/
def detect_security_patterns (diff_info : DiffInfo) : List String :=
  (diff_info.files.filter (fun file =>
    let content_lower := rustToLower file.diff_content
    let path_lower := rustToLower file.path
    let strong_keywords :=
      rustContains content_lower "vulnerability" || rustContains content_lower "exploit"
        || rustContains content_lower "injection" || rustContains content_lower "xss"
        || rustContains content_lower "csrf" || rustContains content_lower "cve-"
    let auth_crypto :=
      rustContains content_lower "authentication" || rustContains content_lower "authorization"
        || rustContains content_lower "encrypt" || rustContains content_lower "token"
    let security_paths :=
      rustContains path_lower "/auth/" || rustContains path_lower "/security/"
    let is_test := rustContains path_lower "test" || rustContains path_lower "spec"
    let is_doc := rustEndsWith path_lower ".md"
    !is_test && !is_doc && (strong_keywords || (auth_crypto && security_paths)))).map
    (fun f => f.path)

/-- `detect_refactoring_patterns` — balanced additions and removals.  The
`f32` ratio is modelled by exact rational division (with the Rust `0.0`
fallback when nothing was added). -/
def detect_refactoring_patterns (diff_info : DiffInfo) : RefactoringSignals :=
  let total_added : Nat := (diff_info.files.map (fun f => f.added_lines)).sum
  let total_removed : Nat := (diff_info.files.map (fun f => f.removed_lines)).sum
  let balance : ℚ := if 0 < total_added then (total_removed : ℚ) / (total_added : ℚ) else 0
  let is_refactoring := decide (7/10 < balance) && decide (balance < 13/10)
    && decide (50 < total_added)
  { is_refactoring := is_refactoring,
    description := if is_refactoring then "code restructuring with balanced changes" else "",
    files := if is_refactoring then diff_info.files.map (fun f => f.path) else [] }

/-- `calculate_new_file_impact` — 0.7 base plus 0.1 per new file, capped at 1. -/
def calculate_new_file_impact (new_files : List String) : ℚ :=
  min ((7/10) + (new_files.length : ℚ) * (1/10)) 1

/-- Plural suffix helper for the `format!` calls (`if n > 1 { "s" } else { "" }`). -/
def pluralS (n : Nat) : String := if 1 < n then "s" else ""

/-- `detect_universal_patterns` — detect patterns that work across any
programming language; each `patterns.push`/`extend` site becomes one list
append, in source order. -/
def detect_universal_patterns (diff_info : DiffInfo) : List Pattern :=
  let file_analysis := analyse_file_metadata diff_info
  -- new file pattern
  (if !file_analysis.new_files.isEmpty then
    [{ pattern_type := PatternType.NewFilePattern,
       description := toString file_analysis.new_files.length ++ " new file"
         ++ pluralS file_analysis.new_files.length ++ " introduced",
       impact := calculate_new_file_impact file_analysis.new_files,
       files_affected := file_analysis.new_files }]
  else []) ++
  -- cross-layer changes
  (let layers := detect_layers file_analysis
   if 2 ≤ layers.length then
    [{ pattern_type := PatternType.CrossLayerChange,
       description := "changes span " ++ toString layers.length ++ " layers: "
         ++ joinSep ", " layers,
       impact := 8/10 + (1/10) * (layers.length : ℚ),
       files_affected := diff_info.files.map (fun f => f.path) }]
   else []) ++
  -- mass modification pattern
  (if 5 ≤ diff_info.files.length then
    let total_changes : Nat := (diff_info.files.map (fun f => f.added_lines + f.removed_lines)).sum
    [{ pattern_type := PatternType.MassModification,
       description := toString diff_info.files.length ++ " files modified with "
         ++ toString total_changes ++ " total line changes",
       impact := min (1/2 + (diff_info.files.length : ℚ) * (1/10)) 1,
       files_affected := diff_info.files.map (fun f => f.path) }]
  else []) ++
  -- per-file content patterns
  (diff_info.files.map analyse_file_content_universal).flatten ++
  -- configuration changes
  (let config_files := detect_config_files file_analysis
   if !config_files.isEmpty then
    [{ pattern_type := PatternType.ConfigurationDrift,
       description := "configuration or settings modified",
       impact := 7/10,
       files_affected := config_files }]
   else []) ++
  -- dependency changes
  (let dep_files := detect_dependency_files file_analysis
   if !dep_files.isEmpty then
    [{ pattern_type := PatternType.DependencyUpdate,
       description := "dependencies or packages updated",
       impact := 6/10,
       files_affected := dep_files }]
   else []) ++
  -- test changes
  (let test_files := detect_test_files file_analysis
   if !test_files.isEmpty
      && decide ((3/10 : ℚ) < (test_files.length : ℚ) / (diff_info.files.length : ℚ)) then
    [{ pattern_type := PatternType.TestEvolution,
       description := toString test_files.length ++ " test file"
         ++ pluralS test_files.length ++ " modified",
       impact := 1/2,
       files_affected := test_files }]
   else []) ++
  -- refactoring detection
  (let refactoring_signals := detect_refactoring_patterns diff_info
   if refactoring_signals.is_refactoring then
    [{ pattern_type := PatternType.RefactoringPattern,
       description := refactoring_signals.description,
       impact := 7/10,
       files_affected := refactoring_signals.files }]
   else []) ++
  -- documentation changes
  (let doc_files := detect_doc_files file_analysis
   if !doc_files.isEmpty then
    [{ pattern_type := PatternType.DocumentationUpdate,
       description := toString doc_files.length ++ " documentation file"
         ++ pluralS doc_files.length ++ " updated",
       impact := 4/10,
       files_affected := doc_files }]
   else []) ++
  -- style changes
  (if detect_style_changes diff_info then
    [{ pattern_type := PatternType.StyleNormalization,
       description := "formatting and style normalisations",
       impact := 3/10,
       files_affected := diff_info.files.map (fun f => f.path) }]
  else []) ++
  -- ci changes
  (let ci_files := detect_ci_files file_analysis
   if !ci_files.isEmpty then
    [{ pattern_type := PatternType.CiChange,
       description := toString ci_files.length ++ " CI configuration file"
         ++ pluralS ci_files.length ++ " modified",
       impact := 1/2,
       files_affected := ci_files }]
   else []) ++
  -- deprecation patterns
  (let deprecation_files := detect_deprecation_patterns diff_info
   if !deprecation_files.isEmpty then
    [{ pattern_type := PatternType.Deprecation,
       description := toString deprecation_files.length ++ " deprecation"
         ++ pluralS deprecation_files.length ++ " detected - potential breaking changes",
       impact := 9/10,
       files_affected := deprecation_files }]
   else []) ++
  -- security fix patterns
  (let security_files := detect_security_patterns diff_info
   if !security_files.isEmpty then
    [{ pattern_type := PatternType.SecurityFix,
       description := toString security_files.length ++ " security-related change"
         ++ pluralS security_files.length ++ " detected",
       impact := 95/100,
       files_affected := security_files }]
   else [])

/-- `calculate_pattern_complexity` — overall complexity from patterns:
`((0.3 * count + sum of impacts) / 2).min(5.0)` in exact rationals. -/
def calculate_pattern_complexity (patterns : List Pattern) : ℚ :=
  let base_complexity : ℚ := (patterns.length : ℚ) * (3/10)
  let pattern_complexity : ℚ := (patterns.map (fun p => p.impact)).sum
  min ((base_complexity + pattern_complexity) / 2) 5

/-- `determine_body_requirement` — whether a commit body is required. -/
def determine_body_requirement (patterns : List Pattern) (complexity_score : ℚ)
    (diff_info : DiffInfo) : Bool :=
  -- always require body for complex commits
  if (5/2 : ℚ) ≤ complexity_score then true
  -- require body for certain pattern types
  else if patterns.any (fun pattern =>
      match pattern.pattern_type with
      | PatternType.ArchitecturalShift | PatternType.CrossLayerChange
      | PatternType.SecurityFix | PatternType.Deprecation => true
      | _ => false) then true
  -- require body for many files
  else if 5 ≤ diff_info.files.length then true
  -- require body for large changes
  else
    let total_changes : Nat := (diff_info.files.map (fun f => f.added_lines + f.removed_lines)).sum
    decide (100 < total_changes)

/-! ### Validation and message processing (src/commit-wizard-core/src/ai/validation.rs)

Byte indices produced by Rust `str::find` are modelled by character indices;
the two agree on which characters a slice contains, since slicing always
happens at match boundaries. -/

/-- The fixed conventional-commit type vocabulary. -/
def valid_types : List String :=
  ["feat", "fix", "docs", "style", "refactor", "perf", "test", "build", "ci", "chore", "revert"]

/-- `is_likely_commit_message` — check if a line is likely a commit message. -/
def is_likely_commit_message (line : String) : Bool :=
  match splitFirstL [':'] line.data with
  | none => false
  | some (before_colon, _) =>
    let type_part : List Char :=
      trimEndMatchesCharL '!' ((splitCharL '(' before_colon).headD before_colon)
    valid_types.contains ⟨type_part⟩

/-- `normalize_scope` — remove spaces after commas in a scope list. -/
def normalize_scope (scope : String) : String :=
  joinSep "," ((rustSplitChar scope ',').map rustTrim)

/-- `normalize_commit_format` — convert `type[scope]:` to `type(scope):` and
fix scope spacing. -/
def normalize_commit_format (msg : String) : String :=
  let msg := rustTrim msg
  if rustContainsChar msg '[' && rustContainsChar msg ']' && rustContainsChar msg ':' then
    match rustSplitn2Char msg ':' with
    | [p0, p1] =>
      let type_scope := rustTrim p0
      let description := rustTrim p1
      let normalized_type_scope := rustReplace (rustReplace type_scope "[" "(") "]" ")"
      normalized_type_scope ++ ": " ++ description
    | _ => msg
  else
    match rustFindChar msg '(' with
    | some open_paren =>
      match rustFindChar msg ')' with
      | some close_paren =>
        if open_paren < close_paren then
          let prefixPart : String := ⟨msg.data.take open_paren⟩
          let scope : String := ⟨(msg.data.drop (open_paren + 1)).take (close_paren - open_paren - 1)⟩
          let suffixPart : String := ⟨msg.data.drop close_paren⟩
          prefixPart ++ "(" ++ normalize_scope scope ++ suffixPart
        else msg
      | none => msg
    | none => msg

/-- One step of the `clean_commit_message` line loop; the state is the
collected lines together with the `in_body` flag. -/
def clean_commit_line_step (st : List String × Bool) (line : String) : List String × Bool :=
  let (cleaned_lines, in_body) := st
  let trimmed := rustTrim line
  -- skip meta-commentary
  if rustStartsWith trimmed "This commit" || rustStartsWith trimmed "The commit"
      || rustStartsWith trimmed "Note:" || rustStartsWith trimmed "Explanation:" then
    (cleaned_lines, in_body)
  -- detect when we are in the body (after blank line)
  else if cleaned_lines.length = 1 && trimmed.data.isEmpty then
    (cleaned_lines ++ [""], true)
  -- clean bullet points in body
  else if in_body && (rustStartsWith trimmed "-" || rustStartsWith trimmed "*") then
    let content := rustTrim ⟨trimStartMatchesCharL '*' (trimStartMatchesCharL '-' trimmed.data)⟩
    (cleaned_lines ++ ["- " ++ content], in_body)
  else if !trimmed.data.isEmpty || in_body then
    (cleaned_lines ++ [trimmed], in_body)
  else (cleaned_lines, in_body)

/-- `clean_commit_message` — clean a commit message of unwanted characters. -/
def clean_commit_message (msg : String) : String :=
  let msg := rustTrim msg
  -- remove common ai response artifacts
  let msg := rustTrimStartMatchesStr msg "```"
  let msg := rustTrimEndMatchesStr msg "```"
  let msg := rustTrimStartMatchesStr msg "commit message:"
  let msg := rustTrimStartMatchesStr msg "generated commit:"
  let msg := rustTrimStartMatchesStr msg "here's the commit message:"
  let msg := rustTrim msg
  let msg := rustTrimMatchesChar msg '"'
  let msg := rustTrimMatchesChar msg '`'
  let cleaned_lines := ((rustLines msg).foldl clean_commit_line_step ([], false)).1
  joinNl cleaned_lines

/-- First pass of `extract_commit_message`: look for a commit message inside
fenced code blocks.  The arguments mirror the loop state
(`commit_lines`, `found_commit_start`, `in_code_block`); returning the
accumulator models `break`. -/
def extract_pass_code_block :
    List String → List String → Bool → Bool → List String
  | [], acc, _, _ => acc
  | line :: rest, acc, found, in_code =>
    let trimmed := rustTrim line
    if rustStartsWith trimmed "```" then
      if in_code && found then acc
      else extract_pass_code_block rest acc found (!in_code)
    else if in_code then
      if !found && is_likely_commit_message trimmed then
        extract_pass_code_block rest (acc ++ [trimmed]) true in_code
      else if found then
        if rustStartsWith trimmed "Breaking changes:" || rustStartsWith trimmed "Note:" then acc
        else extract_pass_code_block rest (acc ++ [trimmed]) found in_code
      else extract_pass_code_block rest acc found in_code
    else extract_pass_code_block rest acc found in_code

/-- Second pass of `extract_commit_message`: look for a commit message
directly in the response, outside code blocks. -/
def extract_pass_direct : List String → List String → Bool → List String
  | [], acc, _ => acc
  | line :: rest, acc, found =>
    let trimmed := rustTrim line
    if !found then
      if is_likely_commit_message trimmed then extract_pass_direct rest (acc ++ [trimmed]) true
      else extract_pass_direct rest acc false
    else if rustStartsWith trimmed "Breaking changes:" || rustStartsWith trimmed "Note:" then acc
    else if trimmed.data.isEmpty then extract_pass_direct rest (acc ++ [""]) found
    else if rustStartsWith trimmed "-" || rustStartsWith trimmed "*"
        || rustStartsWith trimmed "BREAKING CHANGE:" then
      extract_pass_direct rest (acc ++ [trimmed]) found
    else if 2 < acc.length then extract_pass_direct rest (acc ++ [trimmed]) found
    else acc

/-- `extract_commit_message` — extract a commit message from an ai response. -/
def extract_commit_message (response : String) : String :=
  let response :=
    rustTrimMatchesPred (rustTrim response) (fun c => c = '"' || c = '`' || c = '*')
  let lines := rustLines response
  let commit_lines := extract_pass_code_block lines [] false false
  if !commit_lines.isEmpty then
    normalize_commit_format (clean_commit_message (joinNl commit_lines))
  else
    let commit_lines := extract_pass_direct lines [] false
    if !commit_lines.isEmpty then
      normalize_commit_format (clean_commit_message (joinNl commit_lines))
    else
      normalize_commit_format (clean_commit_message response)

/-- `shorten_description` — intelligently shorten a description to ≤ 72 bytes. -/
def shorten_description (description : String) : Option String :=
  if rustLen description ≤ 72 then some description
  else
    -- remove redundant words
    let shortened := rustReplace description "functionality" "func"
    let shortened := rustReplace shortened "configuration" "config"
    let shortened := rustReplace shortened "implementation" "impl"
    let shortened := rustReplace shortened "documentation" "docs"
    let shortened := rustReplace shortened "specification" "spec"
    let shortened := rustReplace shortened "repository" "repo"
    let shortened := rustReplace shortened "database" "db"
    let shortened := rustReplace shortened "application" "app"
    let shortened := rustReplace shortened "development" "dev"
    let shortened := rustReplace shortened "production" "prod"
    let shortened := rustReplace shortened "environment" "env"
    let shortened := rustReplace shortened "authentication" "auth"
    let shortened := rustReplace shortened "authorization" "authz"
    let shortened := rustReplace shortened "administrator" "admin"
    let shortened := rustReplace shortened "management" "mgmt"
    let shortened := rustReplace shortened "information" "info"
    if rustLen shortened ≤ 72 then some shortened
    else
      -- remove filler words
      let filler_words := ["the", "a", "an", "for", "with", "to", "in", "of"]
      let filtered := (rustSplitWhitespace shortened).filter (fun w => !filler_words.contains w)
      let shortened := joinSep " " filtered
      if rustLen shortened ≤ 72 then some shortened
      else
        -- use abbreviations
        let shortened := rustReplace shortened "update" "upd"
        let shortened := rustReplace shortened "message" "msg"
        let shortened := rustReplace shortened "commit" "cmt"
        let shortened := rustReplace shortened "generation" "gen"
        let shortened := rustReplace shortened "validation" "valid"
        let shortened := rustReplace shortened "description" "desc"
        let shortened := rustReplace shortened "character" "char"
        let shortened := rustReplace shortened "maximum" "max"
        let shortened := rustReplace shortened "minimum" "min"
        let shortened := rustReplace shortened "function" "fn"
        let shortened := rustReplace shortened "variable" "var"
        let shortened := rustReplace shortened "parameter" "param"
        if rustLen shortened ≤ 72 then some shortened
        else none

/-- `post_process_commit_message` — lowercase the first description letter,
strip a trailing period and shorten over-long descriptions. -/
def post_process_commit_message (msg : String) : String :=
  match rustFindChar msg ':' with
  | some colon_pos =>
    let type_scope : String := ⟨trimEndL (msg.data.take colon_pos)⟩
    let description := rustTrim ⟨msg.data.drop (colon_pos + 1)⟩
    if description.data.isEmpty then type_scope ++ ": "
    else
      -- ensure lowercase first letter
      let description :=
        match description.data with
        | first :: restChars =>
          if first.isUpper then ⟨first.toLower :: restChars⟩ else description
        | [] => description
      -- remove period at the end
      let description : String :=
        if description.data.getLast? = some '.' then ⟨description.data.dropLast⟩
        else description
      -- try to shorten if too long
      let description :=
        if 72 < rustLen description then
          match shorten_description description with
          | some shortened => shortened
          | none => description
        else description
      type_scope ++ ": " ++ description
  | none => msg

/-- The fixed list of vague words penalized by `validate_description`. -/
def vague_words : List String :=
  ["things", "stuff", "various", "multiple", "some", "several", "many", "few",
   "miscellaneous", "misc", "general", "generic", "updates", "changes",
   "modifications", "improvements", "fixes"]

/-- The known non-imperative first words rejected by `validate_description`. -/
def non_imperative : List String :=
  ["added", "removed", "deleted", "created", "updated", "modified",
   "fixing", "adding", "removing", "creating", "updating", "modifying"]

/-- `validate_description` — validate the description part of a commit
message; errors carry the Rust error message text. -/
def validate_description (description : String) : Except String Unit :=
  if description.data.isEmpty then
    .error "description cannot be empty"
  else if 72 < rustLen description then
    .error ("description too long (" ++ toString (rustLen description)
      ++ " chars), must be ≤72 characters")
  else if description.data.getLast? = some '.' then
    .error "description should not end with a period"
  else
    let first_char := description.data.headD ' '
    if first_char.isUpper then
      .error "description should start with lowercase letter"
    else
      let description_lower := rustToLower description
      let found_vague_words := vague_words.filter (fun w => rustContains description_lower w)
      let vague_count := found_vague_words.length
      if 2 < vague_count then
        .error ("description too vague - contains " ++ toString vague_count
          ++ " vague words (" ++ joinSep ", " found_vague_words ++ "), try to be more specific")
      else
        let words := rustSplitWhitespace description
        match words.head? with
        | some first_word =>
          if (rustEndsWith first_word "ed"
              || (rustEndsWith first_word "ing" && 4 < rustLen first_word))
              && non_imperative.contains first_word then
            .error "description should use imperative mood (e.g., 'add' not 'added' or 'adding')"
          else .ok ()
        | none => .ok ()

/-- `validate_commit_message` — validate a message against the conventional
commit grammar; only the first line of the message is inspected. -/
def validate_commit_message (msg : String) : Except String Unit :=
  match (rustLines msg).head? with
  | none => .error "commit message is empty"
  | some first_line =>
    let has_scope := rustContainsChar first_line '(' && rustContainsChar first_line ')'
    if has_scope then
      -- format: type(scope): description or type(scope)!: description
      match rustSplitn2Char first_line '(' with
      | [p0, rest] =>
        let type_part : String := ⟨trimEndMatchesCharL '!' p0.data⟩
        if !valid_types.contains type_part then
          .error ("invalid type '" ++ type_part ++ "', must be one of: "
            ++ joinSep ", " valid_types)
        else
          let scope_desc :=
            if rustContains rest ")!: " then rustSplitn2 rest ")!: "
            else rustSplitn2 rest "): "
          match scope_desc with
          | [scope, description] =>
            if !scope.data.isEmpty
                && (rustContainsChar scope ' '
                  || !(scope.data.all (fun c =>
                        c.isAlphanum || c = '-' || c = '_' || c = ',' || c = '.' || c = '/'))) then
              .error ("invalid scope '" ++ scope
                ++ "', must be a noun (alphanumeric, hyphens, underscores, commas, dots, or forward slashes only)")
            else validate_description description
          | _ =>
            .error "invalid format: expected 'type(scope): description' or 'type(scope)!: description'"
      | _ => .error "invalid format: missing opening parenthesis"
    else
      -- format: type: description or type!: description
      let parts :=
        if rustContains first_line "!: " then rustSplitn2 first_line "!: "
        else rustSplitn2 first_line ": "
      match parts with
      | [p0, description] =>
        let type_part : String := ⟨trimEndMatchesCharL '!' p0.data⟩
        if !valid_types.contains type_part then
          .error ("invalid type '" ++ type_part ++ "', must be one of: "
            ++ joinSep ", " valid_types)
        else validate_description description
      | _ =>
        .error "invalid format: expected 'type: description', 'type!: description', or 'type(scope): description'"

/-- `fix_commit_format` — attempt to fix common commit format issues. -/
def fix_commit_format (msg : String) : Except String String :=
  let msg := rustTrim msg
  -- handle case where ai included too much in the type field
  let early : Option String :=
    match rustFindChar msg ':' with
    | some first_colon =>
      let before_colon : String := ⟨msg.data.take first_colon⟩
      let after_colon := rustTrim ⟨msg.data.drop (first_colon + 1)⟩
      if 20 < rustLen before_colon && !rustContainsChar before_colon '(' then
        match rustFindChar before_colon ' ' with
        | some first_space =>
          let actual_type : String := ⟨before_colon.data.take first_space⟩
          if valid_types.contains actual_type then some (actual_type ++ ": " ++ after_colon)
          else none
        | none => none
      else none
    | none => none
  match early with
  | some fixed => .ok fixed
  | none =>
    -- apply standard normalization
    let normalized := normalize_commit_format msg
    match validate_commit_message normalized with
    | .ok _ => .ok normalized
    | .error e =>
      if rustContains e "invalid scope" && rustContains e "ai, napi" then
        .ok (normalize_commit_format msg)
      else .error e

/-! ### Prompt construction (src/commit-wizard-core/src/ai/prompts.rs)

Only the diff-content section of `construct_intelligent_prompt` is embedded
(the part the claims are about); the section is modelled as the list of
(file, included-diff-text) entries the loop renders, in order. -/

/-- `is_auto_generated_or_boring_file` — lockfiles, generated/minified
artifacts, build-output paths and binary/media extensions. -/
def is_auto_generated_or_boring_file (path : String) : Bool :=
  let path_lower := rustToLower path
  -- lock files
  if rustEndsWith path_lower ".lock" || rustEndsWith path_lower "-lock.json"
      || rustEndsWith path_lower "-lock.yaml" then true
  -- generated files
  else if rustContains path_lower "generated" || rustContains path_lower ".min."
      || rustContains path_lower "dist/" || rustContains path_lower "build/"
      || rustContains path_lower "target/" then true
  -- binary files
  else if rustEndsWith path_lower ".png" || rustEndsWith path_lower ".jpg"
      || rustEndsWith path_lower ".gif" || rustEndsWith path_lower ".ico"
      || rustEndsWith path_lower ".pdf" then true
  else false

/-- `get_file_priority` — priority tier of a file for diff inclusion. -/
def get_file_priority (path : String) : Nat :=
  let path_lower := rustToLower path
  if rustContains path_lower "/src/" && !rustContains path_lower "test" then 10
  else if rustContains path_lower "api" || rustContains path_lower "service" then 9
  else if rustContains path_lower "model" || rustContains path_lower "config" then 7
  else if rustContains path_lower "test" || rustContains path_lower "spec" then 5
  else if rustEndsWith path_lower ".md" || rustEndsWith path_lower ".txt" then 3
  else 6

/-- `get_important_files_for_diff` — sort by priority (descending) and drop
auto-generated files.  Rust `sort_by` is an unstable sort; any
priority-descending order satisfies the comparator, and the claims do not
depend on the tie order. -/
def get_important_files_for_diff (files : List ModifiedFile) : List ModifiedFile :=
  (sortBy (fun a b => get_file_priority b.path ≤ get_file_priority a.path) files).filter
    (fun f => !is_auto_generated_or_boring_file f.path)

/-- `is_important_line` — whether a diff line is important for ai context. -/
def is_important_line (line : String) : Bool :=
  if (rustTrim line).data.isEmpty then false
  else if rustStartsWith line "+" && !rustStartsWith line "+++" then
    let content := rustTrim ⟨trimStartMatchesCharL '+' line.data⟩
    if content = "\x7b" || content = "\x7d" || content = "(" || content = ")" then false
    else if rustStartsWith content "import " || rustStartsWith content "use " then
      rustContainsChar content ',' || 50 < rustLen content
    else true
  else if rustStartsWith line "-" && !rustStartsWith line "---" then
    let content := rustTrim ⟨trimStartMatchesCharL '-' line.data⟩
    !(content = "\x7b" || content = "\x7d" || content.data.isEmpty)
  else rustStartsWith line "@@" || rustStartsWith line "diff --git"

/-- First selection pass of `extract_meaningful_diff_lines`: important lines,
up to the limit. -/
def select_important_lines (max_lines : Nat) : List String → List String → List String
  | [], acc => acc
  | line :: rest, acc =>
    if max_lines ≤ acc.length then acc
    else if is_important_line line then select_important_lines max_lines rest (acc ++ [line])
    else select_important_lines max_lines rest acc

/-- Second pass of `extract_meaningful_diff_lines`: fill remaining slots with
non-empty context lines not already selected. -/
def fill_context_lines (max_lines : Nat) : List String → List String → List String
  | [], acc => acc
  | line :: rest, acc =>
    if max_lines ≤ acc.length then acc
    else if !acc.contains line && !(rustTrim line).data.isEmpty then
      fill_context_lines max_lines rest (acc ++ [line])
    else fill_context_lines max_lines rest acc

/-- `extract_meaningful_diff_lines` — select at most `max_lines` lines,
prioritising important lines, joined with newlines. -/
def extract_meaningful_diff_lines (diff_content : String) (max_lines : Nat) : String :=
  let lines := rustLines diff_content
  let selected_lines := select_important_lines max_lines lines []
  let selected_lines := fill_context_lines max_lines lines selected_lines
  joinNl selected_lines

/-- `MAX_TOTAL_DIFF_LINES` — the prompt's total diff-line budget. -/
def MAX_TOTAL_DIFF_LINES : Nat := 3000

/-- `calculate_diff_lines_for_file` — per-file line allotment given the
current running total, never exceeding the remaining budget. -/
def calculate_diff_lines_for_file (file : ModifiedFile) (current_total max_total : Nat) : Nat :=
  let remaining := max_total - current_total
  let file_changes := file.added_lines + file.removed_lines
  if file_changes < 50 then min file_changes remaining
  else if file_changes < 200 then min (min (file_changes / 2) remaining) 100
  else min 50 remaining

/-- The diff-content loop of `construct_intelligent_prompt` (its lines
141–181): walks the important files with index `i` and running line total,
stopping at 15 files or when the budget is reached; each rendered entry
carries the `meaningful_diff` text actually included (empty when the
"Large diff" placeholder is rendered instead). -/
def diff_section_loop : List ModifiedFile → Nat → Nat → List (ModifiedFile × String)
  | [], _, _ => []
  | file :: rest, i, total_diff_lines =>
    if 15 ≤ i || MAX_TOTAL_DIFF_LINES ≤ total_diff_lines then []
    else
      let lines_to_include := calculate_diff_lines_for_file file total_diff_lines MAX_TOTAL_DIFF_LINES
      let meaningful_diff := extract_meaningful_diff_lines file.diff_content lines_to_include
      if !meaningful_diff.data.isEmpty then
        (file, meaningful_diff) ::
          diff_section_loop rest (i + 1) (total_diff_lines + (rustLines meaningful_diff).length)
      else (file, "") :: diff_section_loop rest (i + 1) total_diff_lines

/-- The rendered diff-content entries for a `DiffInfo`'s files. -/
def diff_section_entries (files : List ModifiedFile) : List (ModifiedFile × String) :=
  diff_section_loop (get_important_files_for_diff files) 0 0

/-- The diff-content section text, rendered from the loop entries exactly as
`construct_intelligent_prompt` appends it (header, content or placeholder). -/
def diff_section_text (files : List ModifiedFile) : String :=
  (diff_section_entries files).foldl
    (fun acc e =>
      let header := "\n--- " ++ e.1.path ++ " (+" ++ toString e.1.added_lines ++ " -"
        ++ toString e.1.removed_lines ++ ") ---\n"
      if !e.2.data.isEmpty then acc ++ header ++ e.2 ++ "\n"
      else acc ++ header ++ "Large diff with " ++ toString e.1.added_lines ++ " additions, "
        ++ toString e.1.removed_lines ++ " deletions\n")
    "\n🔍 DIFF CONTENT (for context):\n"

/-! ### Repository diff reader (src/commit-wizard-core/src/git.rs)

The git2 collaborator is modelled by `GitRepoState`: the data the source
reads through `Repository::head`, `diff_tree_to_index`, `Index::iter` and
`diff_index_to_workdir`.  A diff delta carries the per-file data the source
consumes (`new_file().path()` is assumed present — deltas without a path are
skipped by the source and so are simply not modelled); `decode_line_content`
is the identity on the already-decoded line text. -/

/-- One delta of a git2 diff, with its printed patch lines
(`line.origin()` character and line content). -/
structure DiffDelta where
  path : String
  old_is_binary : Bool
  new_is_binary : Bool
  old_size : Nat
  new_size : Nat
  patch : List (Char × String)
  deriving DecidableEq, Repr

/-- One entry of the index of a repository with no commits yet; `content` is
`none` when `fs::read_to_string` would fail (binary file). -/
structure IndexEntry where
  path : String
  size : Nat
  content : Option String
  deriving DecidableEq, Repr

/-- The repository state read by `get_diff_info` through git2. -/
structure GitRepoState where
  has_head : Bool
  staged_deltas : List DiffDelta
  index_entries : List IndexEntry
  unstaged_deltas : List DiffDelta
  deriving DecidableEq, Repr

/-- `extract_key_changes`, function-name extraction: Rust byte indices from
`str::find` are modelled by character indices (slice contents agree). -/
def extract_function_name (line : String) : Option String :=
  let fn_pos :=
    match splitFirstL "fn ".data line.data with
    | some (b, _) => some b.length
    | none =>
      match splitFirstL "function ".data line.data with
      | some (b, _) => some b.length
      | none =>
        match splitFirstL "def ".data line.data with
        | some (b, _) => some b.length
        | none => none
  match fn_pos with
  | none => none
  | some fn_pos =>
    match (line.data.drop fn_pos).findIdx? (fun c => c = ' ') with
    | none => none
    | some name_start =>
      match (line.data.drop (fn_pos + name_start + 1)).findIdx?
          (fun c => c = '(' || c.isWhitespace) with
      | none => none
      | some name_end =>
        let name : List Char := (line.data.drop (fn_pos + name_start + 1)).take name_end
        if !name.isEmpty && name.all (fun c => c.isAlphanum || c = '_') then
          some ⟨name⟩
        else none

/-- The pushes of one `extract_key_changes` loop iteration. -/
def key_changes_for_line (line : String) : List String :=
  let line_lower := rustToLower line
  -- function additions
  (if (rustContains line "fn " && (rustContains line "pub " || rustContains line "async "))
      || rustContains line "function " || rustContains line "def " then
    match extract_function_name line with
    | some name => ["add function " ++ name]
    | none => []
  else []) ++
  -- type additions
  (if rustContains line "struct " || rustContains line "enum "
      || rustContains line "class " || rustContains line "interface " then
    ["add type definition"] else []) ++
  -- imports
  (if rustContains line_lower "use " || rustContains line_lower "import "
      || rustContains line_lower "from " then
    ["add dependencies"] else []) ++
  -- configuration changes
  (if rustContains line "config" || rustContains line "setting" then
    ["modify configuration"] else []) ++
  -- error handling
  (if rustContains line "Error" || rustContains line "Exception"
      || rustContains line "Result" then
    ["improve error handling"] else []) ++
  -- async/performance related
  (if rustContains line "async" || rustContains line "await"
      || rustContains line "cache" then
    ["add async/performance features"] else [])

/-- `extract_key_changes` — up to 3 deduplicated, sorted key-change phrases
from the added lines (the Rust `HashSet` round-trip before sorting is
modelled by order-preserving deduplication, which the sort makes moot). -/
def extract_key_changes (diff_content : String) : String :=
  let added_lines :=
    (((rustLines diff_content).filter
        (fun l => rustStartsWith l "+" && !rustStartsWith l "+++")).map
      (fun l => rustTrim ⟨trimStartMatchesCharL '+' l.data⟩)).filter
      (fun l => !l.data.isEmpty)
  let changes := (added_lines.map key_changes_for_line).flatten
  let unique_changes := (sortBy (fun a b => !decide (b < a)) changes.dedup).take 3
  joinSep ", " unique_changes

/-- First pass of `process_diff`: collect valid file paths, skipping binary
and oversized files, stopping (git2 early termination) at `max_files`. -/
def collect_valid_paths (max_file_size max_files : Nat) :
    List DiffDelta → List String → List String
  | [], valid_paths => valid_paths
  | delta :: rest, valid_paths =>
    if delta.new_is_binary || delta.old_is_binary then
      collect_valid_paths max_file_size max_files rest valid_paths
    else
      let file_size := if delta.new_size = 0 then delta.old_size else delta.new_size
      if max_file_size < file_size then
        collect_valid_paths max_file_size max_files rest valid_paths
      else if max_files ≤ valid_paths.length then valid_paths
      else collect_valid_paths max_file_size max_files rest (valid_paths ++ [delta.path])

/-- Third pass of `process_diff`, per printed line: update the first file
entry with a matching path (line counts, capped diff content). -/
def apply_patch_line (path : String) (origin : Char) (content : String) :
    List ModifiedFile → List ModifiedFile
  | [] => []
  | f :: rest =>
    if f.path = path then
      let f :=
        if origin = '+' then { f with added_lines := f.added_lines + 1 }
        else if origin = '-' then { f with removed_lines := f.removed_lines + 1 }
        else f
      let f :=
        if rustLen f.diff_content < 5000 then
          { f with diff_content := f.diff_content ++ ⟨[origin]⟩ ++ content }
        else f
      f :: rest
    else f :: apply_patch_line path origin content rest

/-- `process_diff` — extract file information from a diff into `files`. -/
def process_diff (deltas : List DiffDelta) (files : List ModifiedFile)
    (max_file_size max_files : Nat) : List ModifiedFile :=
  -- first pass: collect valid file paths
  let valid_paths := collect_valid_paths max_file_size max_files deltas []
  -- second pass: initialise file entries for all valid paths
  let files := files ++ valid_paths.map (fun path =>
    { path := path, added_lines := 0, removed_lines := 0, diff_content := "",
      file_type := classify_file_type path, change_hints := [] })
  -- third pass: collect diff content
  let files := deltas.foldl
    (fun fs delta => delta.patch.foldl
      (fun fs pl => apply_patch_line delta.path pl.1 pl.2 fs) fs)
    files
  -- batch process change hints for all files
  files.map (fun file =>
    { file with change_hints := analyse_change_hints file.diff_content false })

/-- The staged-file collection of `get_diff_info` for a repository with no
commits yet: every index entry becomes a wholesale new-file addition,
skipping oversized and unreadable files and stopping after `max_files`. -/
def collect_index_files (max_file_size max_files : Nat) :
    List IndexEntry → List ModifiedFile → List ModifiedFile
  | [], files => files
  | entry :: rest, files =>
    if files.any (fun f => f.path = entry.path) then
      collect_index_files max_file_size max_files rest files
    else if max_file_size < entry.size then
      collect_index_files max_file_size max_files rest files
    else
      match entry.content with
      | none => collect_index_files max_file_size max_files rest files
      | some content =>
        let line_count := (rustLines content).length
        let files := files ++
          [{ path := entry.path, added_lines := line_count, removed_lines := 0,
             diff_content := "+" ++ content,
             file_type := classify_file_type entry.path,
             change_hints := analyse_change_hints content true }]
        if max_files ≤ files.length then files
        else collect_index_files max_file_size max_files rest files

/-- The files recorded by the staged-changes inspection of `get_diff_info`
(index vs HEAD when a HEAD exists, otherwise the whole index). -/
def staged_files (repo : GitRepoState) (max_file_size max_files : Nat) : List ModifiedFile :=
  if repo.has_head then process_diff repo.staged_deltas [] max_file_size max_files
  else collect_index_files max_file_size max_files repo.index_entries []

/-- The per-file breakdown line of the summary. -/
def summary_file_line (file : ModifiedFile) : String :=
  let change_type :=
    if file.removed_lines = 0 && 5 < file.added_lines then " (new file)"
    else if file.removed_lines * 2 < file.added_lines then " (major additions)"
    else if file.added_lines * 2 < file.removed_lines then " (major deletions)"
    else " (modified)"
  let base := "  " ++ file.path ++ " (+" ++ toString file.added_lines ++ ", -"
    ++ toString file.removed_lines ++ ")" ++ change_type
  let base :=
    if !file.diff_content.data.isEmpty then
      let key_changes := extract_key_changes file.diff_content
      if !key_changes.data.isEmpty then base ++ "\n    key changes: " ++ key_changes
      else base
    else base
  base ++ "\n"

/-- The summary string built by `get_diff_info`. -/
def build_summary (files : List ModifiedFile) : String :=
  let file_count := files.length
  let total_additions : Nat := (files.map (fun f => f.added_lines)).sum
  let total_deletions : Nat := (files.map (fun f => f.removed_lines)).sum
  let summary := toString file_count ++ " file" ++ (if file_count = 1 then "" else "s")
    ++ " changed, " ++ toString total_additions ++ " insertion"
    ++ (if total_additions = 1 then "" else "s") ++ ", " ++ toString total_deletions
    ++ " deletion" ++ (if total_deletions = 1 then "" else "s")
  let summary := summary ++ "\n\nfile breakdown:\n"
  files.foldl (fun acc file => acc ++ summary_file_line file) summary

/-- The files recorded after both inspections of `get_diff_info`: unstaged
changes (working tree vs index) are inspected only when zero files were
recorded from the staged inspection. -/
def recorded_files (repo : GitRepoState) (max_file_size max_files : Nat) :
    List ModifiedFile :=
  let files := staged_files repo max_file_size max_files
  -- only check unstaged changes if no staged changes were found
  if files.isEmpty then process_diff repo.unstaged_deltas files max_file_size max_files
  else files

/-- `get_diff_info` — produce a `DiffInfo` from the repository state, or fail
with the no-changes error when zero files were recorded. -/
def get_diff_info (repo : GitRepoState) (max_file_size max_files : Nat) :
    Except String DiffInfo :=
  let files := recorded_files repo max_file_size max_files
  if files.isEmpty then .error "no changes detected in the repository"
  else .ok { files := files, summary := build_summary files }

/-! ### Generation orchestrator (src/commit-wizard-core/src/ai/api.rs)

The network boundary is modelled by oracles: `make_api_request` reads, per
HTTP attempt, an `HttpAttempt` describing what `reqwest` would return; the
outer generation loop of `generate_conventional_commit_with_model` consumes
one `make_api_request` result per model call.  The retry counter of the
source (`retry_count`, bounded by `max_retries = 3`) is represented by the
remaining budget `max_retries - retry_count`, which decreases at exactly the
source's `retry_count += 1; continue` sites. -/

/-- One HTTP attempt outcome inside `make_api_request`. -/
inductive HttpAttempt where
  /-- a 2xx response whose body parsed into the given choice contents -/
  | success (choices : List String)
  /-- a 2xx response whose body failed to parse -/
  | parseErr
  /-- a non-success HTTP status with the error body text -/
  | status (code : Nat) (body : String)
  /-- a network-level failure -/
  | netErr (e : String)
  deriving DecidableEq, Repr

/-- The bounded transport loop of `make_api_request` (`for attempt in
0..max_retries` with `max_retries = 3`); `fuel` is the number of remaining
iterations. -/
def make_api_request_go (model : String) (attempts : Nat → HttpAttempt) :
    Nat → Nat → Except String (List String)
  | 0, _ => .error "failed to complete api request after 3 attempts"
  | fuel + 1, attempt =>
    match attempts attempt with
    | .success choices => .ok choices
    | .parseErr => .error "failed to parse openrouter api response"
    | .status code body =>
      if (500 ≤ code && code ≤ 599) || code = 429 then
        if attempt < 3 - 1 then make_api_request_go model attempts fuel (attempt + 1)
        else .error ("openrouter api error (" ++ toString code ++ "): " ++ body)
      else if code = 400 && rustContains (rustToLower body) "model" then
        .error ("invalid model '" ++ model
          ++ "'. use the model settings menu to select a different model")
      else .error ("openrouter api error (" ++ toString code ++ "): " ++ body)
    | .netErr e =>
      if attempt < 3 - 1 then make_api_request_go model attempts fuel (attempt + 1)
      else .error ("failed to connect to openrouter api after 3 attempts: " ++ e)

/-- `make_api_request` — up to 3 transport attempts with backoff (the sleep
has no observable effect on the result and is not modelled). -/
def make_api_request (model : String) (attempts : Nat → HttpAttempt) :
    Except String (List String) :=
  make_api_request_go model attempts 3 0

/-- The `generated_type` extraction of the retry loop:
`msg.split(':').next() |> split('(').next() |> split('!').next() |> trim`. -/
def generated_type_of (commit_msg : String) : String :=
  let s1 := (splitCharL ':' commit_msg.data).headD []
  let s2 := (splitCharL '(' s1).headD []
  let s3 := (splitCharL '!' s2).headD []
  ⟨trimL s3⟩

/-- The auto-fix attempt of the retry loop's validation-failure branch:
`fix_commit_format` followed by re-validation. -/
def retry_fix_attempt (commit_msg : String) : Option String :=
  match fix_commit_format commit_msg with
  | .ok fixed_msg =>
    match validate_commit_message fixed_msg with
    | .ok _ => some fixed_msg
    | .error _ => none
  | .error _ => none

/-- The result of the generation loop. -/
inductive GenResult where
  | ok (msg : String)
  | err (e : String)
  deriving DecidableEq, Repr

/-- The `loop { … }` of `generate_conventional_commit_with_model`, lines
120–252 of api.rs: one model call per iteration, retrying (with remaining
`budget`) on type mismatch and on "description too long" / "invalid scope"
validation failures.  `oracle idx` is the result of the `idx`-th
`make_api_request` invocation; the second component of the result counts the
model calls issued. -/
def generate_loop (expected_type : String) (oracle : Nat → Except String (List String)) :
    Nat → Nat → GenResult × Nat
  | budget, idx =>
    match oracle idx with
    | .error e => (.err e, idx + 1)
    | .ok choices =>
      let raw_response := (choices.head?).getD ""
      let commit_msg := post_process_commit_message (extract_commit_message raw_response)
      let generated_type := generated_type_of commit_msg
      match validate_commit_message commit_msg with
      | .ok _ =>
        if generated_type = expected_type then (.ok commit_msg, idx + 1)
        else
          match budget with
          | b + 1 => generate_loop expected_type oracle b (idx + 1)
          | 0 => (.ok commit_msg, idx + 1)  -- accept even if type doesn't match
      | .error e =>
        match retry_fix_attempt commit_msg with
        | some fixed_msg => (.ok fixed_msg, idx + 1)
        | none =>
          match budget with
          | b + 1 =>
            if rustContains e "description too long" then
              generate_loop expected_type oracle b (idx + 1)
            else if rustContains e "invalid scope" then
              generate_loop expected_type oracle b (idx + 1)
            else (.err e, idx + 1)
          | 0 => (.err e, idx + 1)

/-- `generate_conventional_commit_with_model`, restricted to its retry loop:
the prompt strings sent on each call do not influence the loop's control
flow, which consumes the per-call transport outcomes; `max_retries = 3`. -/
def generate_conventional_commit_with_model (intelligence_type_hint model : String)
    (attempts : Nat → Nat → HttpAttempt) : GenResult × Nat :=
  generate_loop intelligence_type_hint
    (fun idx => make_api_request model (attempts idx)) 3 0

/-! ### Supporting lemmas about the string toolkit -/

theorem splitNlL_no_nl (cs : List Char) (h : '\n' ∉ cs) : splitNlL cs = [cs] := by
  induction cs with
  | nil => rfl
  | cons c rest ih =>
    have hc : c ≠ '\n' := fun hc => h (hc ▸ List.mem_cons_self c rest)
    have hrest : '\n' ∉ rest := fun hm => h (List.mem_cons_of_mem c hm)
    simp only [splitNlL, List.foldr_cons] at *
    rw [ih hrest, if_neg hc]

theorem rustLines_single (s : String) (h1 : '\n' ∉ s.data) (h2 : s.data ≠ [])
    (h3 : s.data.getLast? ≠ some '\r') : rustLines s = [s] := by
  simp only [rustLines, rustLinesL, if_neg h2, splitNlL_no_nl s.data h1]
  have hlast : ([s.data].getLast? = some ([] : List Char)) = False := by
    simp only [List.getLast?_singleton, Option.some.injEq, eq_iff_iff, iff_false]
    exact fun hd => h2 hd
  rw [if_neg (by simp only [List.getLast?_singleton, Option.some.injEq]; exact fun hd => h2 hd)]
  simp only [List.map_cons, List.map_nil, stripCrL, if_neg h3]

theorem splitFirstL_single_char (c : Char) (a r : List Char) (h : c ∉ a) :
    splitFirstL [c] (a ++ c :: r) = some (a, r) := by
  induction a with
  | nil =>
    simp only [List.nil_append, splitFirstL]
    rw [if_pos]
    · simp
    · simp [List.isPrefixOf]
  | cons x xs ih =>
    have hx : c ≠ x := fun hc => h (hc ▸ List.mem_cons_self x xs)
    have hxs : c ∉ xs := fun hm => h (List.mem_cons_of_mem x hm)
    simp only [List.cons_append, splitFirstL]
    rw [if_neg]
    · simp only [List.append_eq]
      rw [ih hxs]
    · simp only [List.isPrefixOf, Bool.and_eq_true, beq_iff_eq]
      intro hcx
      exact hx hcx.1

theorem splitFirstL_self_append (pat l : List Char) (h : pat ≠ []) :
    splitFirstL pat (pat ++ l) = some ([], l) := by
  match pat, h with
  | p :: ps, _ =>
    simp only [List.cons_append, splitFirstL]
    rw [if_pos]
    · have hdrop : List.drop (p :: ps).length ((p :: ps) ++ l) = l := List.drop_left (p :: ps) l
      simp only [List.cons_append, List.append_eq] at hdrop ⊢
      rw [hdrop]
    · exact List.isPrefixOf_iff_prefix.mpr ⟨l, by simp⟩

theorem trimEndMatchesCharL_no_match (c : Char) (l : List Char)
    (h : l.getLast? ≠ some c) : trimEndMatchesCharL c l = l := by
  unfold trimEndMatchesCharL
  cases hr : l.reverse with
  | nil =>
    have : l = [] := by simpa using congrArg List.reverse hr
    simp [this]
  | cons x xs =>
    have hx : l.getLast? = some x := by
      rw [← List.head?_reverse, hr]
      rfl
    have hxc : ¬ (x = c) := fun he => h (he ▸ hx)
    rw [List.dropWhile_cons_of_neg (by simpa using hxc)]
    rw [← hr, List.reverse_reverse]

theorem string_contains_iff (l : List Char) (c : Char) : l.contains c = true ↔ c ∈ l := by
  simp [List.contains]

/-! ### Claim C8 -/

/-- C8: `get_diff_info` succeeds only with a non-empty file list, and fails
with the no-changes error exactly when zero files were recorded after the
staged and unstaged inspections. -/
theorem get_diff_info_requires_recorded_files :
    ∀ (repo : GitRepoState) (max_file_size max_files : Nat),
      (∀ d : DiffInfo, get_diff_info repo max_file_size max_files = .ok d → d.files ≠ []) ∧
      (recorded_files repo max_file_size max_files = [] →
        get_diff_info repo max_file_size max_files
          = .error "no changes detected in the repository") := by
  intro repo ms mf
  constructor
  · intro d hd
    simp only [get_diff_info] at hd
    split at hd
    · cases hd
    · rename_i hne
      cases hd
      simpa [List.isEmpty_iff] using hne
  · intro h
    simp [get_diff_info, h]

/-- Witness for C8: a repository with no changes at all yields the
no-changes error. -/
theorem get_diff_info_requires_recorded_files_witness :
    get_diff_info ⟨true, [], [], []⟩ 100 10
      = .error "no changes detected in the repository" :=
  (get_diff_info_requires_recorded_files ⟨true, [], [], []⟩ 100 10).2 rfl

/-! ### Claim C3 (corrected) -/

/-- The input refuting C3 as stated: the repository has a staged change (a
binary file), yet `get_diff_info` falls back to inspecting unstaged
changes because zero staged files were recorded. -/
def c3_repo : GitRepoState :=
  { has_head := true,
    staged_deltas := [{ path := "a.bin", old_is_binary := false, new_is_binary := true,
                        old_size := 10, new_size := 10, patch := [] }],
    index_entries := [],
    unstaged_deltas := [{ path := "b.rs", old_is_binary := false, new_is_binary := false,
                          old_size := 10, new_size := 10,
                          patch := [('+', "line one\n")] }] }

/-- C3 counterexample: with at least one staged change present (all of them
binary), `get_diff_info` nonetheless returns a file that exists only among
the unstaged changes — unstaged inspection is not suppressed. -/
theorem staged_binary_falls_back_counterexample :
    c3_repo.staged_deltas ≠ [] ∧
    (get_diff_info c3_repo 1000 10).map (fun d => d.files.map (fun f => f.path))
      = Except.ok ["b.rs"] ∧
    ¬ ("b.rs" ∈ c3_repo.staged_deltas.map (fun d => d.path)) :=
  ⟨by decide, rfl, by decide⟩

/-- C3 amended: the unstaged fallback is keyed on zero *recorded* staged
files, not on the absence of staged changes.  Whenever the staged inspection
records at least one file, the result of `get_diff_info` is independent of
the unstaged changes (they are never inspected); but staged changes that are
all skipped (binary or oversized) do lead to unstaged inspection. -/
theorem staged_recorded_suppresses_unstaged :
    ∀ (repo : GitRepoState) (u1 u2 : List DiffDelta) (ms mf : Nat),
      staged_files repo ms mf ≠ [] →
      get_diff_info { repo with unstaged_deltas := u1 } ms mf
        = get_diff_info { repo with unstaged_deltas := u2 } ms mf := by
  intro repo u1 u2 ms mf h
  have hr : ∀ u : List DiffDelta,
      recorded_files { repo with unstaged_deltas := u } ms mf = staged_files repo ms mf := by
    intro u
    have hs : staged_files { repo with unstaged_deltas := u } ms mf
        = staged_files repo ms mf := rfl
    simp only [recorded_files, hs]
    rw [if_neg (by simpa [List.isEmpty_iff] using h)]
  simp only [get_diff_info, hr]

/-- Witness for C3's amended theorem at a concrete repository. -/
theorem staged_recorded_suppresses_unstaged_witness :
    get_diff_info { has_head := true,
                    staged_deltas := [⟨"s.rs", false, false, 10, 10, [('+', "x\n")]⟩],
                    index_entries := [],
                    unstaged_deltas := [] } 1000 10
      = get_diff_info { has_head := true,
                        staged_deltas := [⟨"s.rs", false, false, 10, 10, [('+', "x\n")]⟩],
                        index_entries := [],
                        unstaged_deltas := [⟨"u.rs", false, false, 10, 10, [('+', "y\n")]⟩] }
          1000 10 :=
  staged_recorded_suppresses_unstaged
    { has_head := true,
      staged_deltas := [⟨"s.rs", false, false, 10, 10, [('+', "x\n")]⟩],
      index_entries := [],
      unstaged_deltas := [] } [] [⟨"u.rs", false, false, 10, 10, [('+', "y\n")]⟩] 1000 10
    (by decide)

/-! ### Claim C2 (corrected) -/

/-- C2 counterexample: a first line with an empty parenthesized scope and a
valid type and description is *accepted* by `validate_commit_message` (the
scope check is guarded by `!scope.is_empty()`). -/
theorem empty_scope_accepted_counterexample :
    "feat" ∈ valid_types ∧ validate_commit_message "feat(): add login" = .ok () :=
  ⟨by decide, rfl⟩

/-- C2 amended: for every type `t` of the vocabulary and description `d`
(single-line, not ending in a carriage return, with no embedded `")!: "`
marker after the parens) that itself passes description validation,
`validate_commit_message` *accepts* the first line `t(): d` — an empty
parenthesized scope is tolerated, not rejected. -/
theorem empty_scope_accepted (t d : String) :
    t ∈ valid_types →
    '\n' ∉ d.data → d.data.getLast? ≠ some '\r' →
    rustContains ("): " ++ d) ")!: " = false →
    validate_description d = .ok () →
    validate_commit_message (t ++ "(): " ++ d) = .ok () := by
  intro ht hnl hcr hnpat hd
  have htf : '(' ∉ t.data ∧ ')' ∉ t.data ∧ '\n' ∉ t.data ∧ t.data ≠ []
      ∧ t.data.getLast? ≠ some '!' := by
    fin_cases ht <;> refine ⟨by decide, by decide, by decide, by decide, by decide⟩
  obtain ⟨hop, hcp, htnl, htne, hbang⟩ := htf
  have hdata : (t ++ "(): " ++ d).data = t.data ++ ('(' :: ')' :: ':' :: ' ' :: d.data) := by
    simp [String.data_append]
  have hne : (t ++ "(): " ++ d).data ≠ [] := by
    rw [hdata]
    simp
  have hnonl : '\n' ∉ (t ++ "(): " ++ d).data := by
    rw [hdata]
    intro hm
    rcases List.mem_append.mp hm with hm | hm
    · exact htnl hm
    · simp only [List.mem_cons] at hm
      rcases hm with h | h | h | h | h
      · exact absurd h (by decide)
      · exact absurd h (by decide)
      · exact absurd h (by decide)
      · exact absurd h (by decide)
      · exact hnl h
  have hlast : (t ++ "(): " ++ d).data.getLast? ≠ some '\r' := by
    rw [hdata, List.getLast?_append_cons]
    cases hdd : d.data with
    | nil => decide
    | cons x xs =>
      rw [show (')' :: ':' :: ' ' :: (x :: xs)) = [')', ':', ' '] ++ (x :: xs) from rfl]
      rw [show ('(' :: ([')', ':', ' '] ++ (x :: xs))) = ['(', ')', ':', ' '] ++ (x :: xs)
        from rfl]
      rw [List.getLast?_append_cons]
      rw [hdd] at hcr
      exact hcr
  have hlines := rustLines_single (t ++ "(): " ++ d) hnonl hne hlast
  have hcontw : rustContainsChar (t ++ "(): " ++ d) '(' = true := by
    simp only [rustContainsChar, string_contains_iff, hdata]
    exact List.mem_append.mpr (Or.inr (by simp))
  have hcontc : rustContainsChar (t ++ "(): " ++ d) ')' = true := by
    simp only [rustContainsChar, string_contains_iff, hdata]
    exact List.mem_append.mpr (Or.inr (by simp))
  have hsplit : rustSplitn2Char (t ++ "(): " ++ d) '(' = [t, "): " ++ d] := by
    simp only [rustSplitn2Char, rustSplitn2, hdata]
    rw [show (t.data ++ ('(' :: ')' :: ':' :: ' ' :: d.data))
          = t.data ++ '(' :: (')' :: ':' :: ' ' :: d.data) from rfl]
    rw [splitFirstL_single_char '(' t.data _ hop]
    exact congrArg₂ (fun a b => [a, b]) rfl rfl
  have htrim : (⟨trimEndMatchesCharL '!' t.data⟩ : String) = t := by
    rw [trimEndMatchesCharL_no_match '!' t.data hbang]
  have hmem : valid_types.contains t = true := by
    simpa [List.contains, List.elem_iff] using ht
  have hsplit2 : rustSplitn2 ("): " ++ d) "): " = ["", d] := by
    simp only [rustSplitn2]
    rw [show ("): " ++ d).data = "): ".data ++ d.data from String.data_append ..]
    rw [splitFirstL_self_append "): ".data d.data (by decide)]
  simp only [validate_commit_message, hlines, List.head?_cons, hcontw, hcontc, Bool.and_self,
    if_true, hsplit, htrim, hmem, Bool.not_true, Bool.false_eq_true, if_false, hnpat, hsplit2,
    List.isEmpty_nil, Bool.not_false, Bool.false_and, String.data]
  exact hd

/-- Witness for C2's amended theorem at a concrete type and description. -/
theorem empty_scope_accepted_witness :
    validate_commit_message "feat(): add login" = .ok () :=
  empty_scope_accepted "feat" "add login" (by decide) (by decide) (by decide)
    (by decide) rfl

/-! ### Claim C5 -/

/-- Each iteration of `generate_loop` issues exactly one model call and
either stops or decrements the retry budget, so from budget `b` and call
index `idx` at most `b + 1` further calls are issued. -/
theorem generate_loop_calls_le (expected_type : String)
    (oracle : Nat → Except String (List String)) :
    ∀ (budget idx : Nat), (generate_loop expected_type oracle budget idx).2 ≤ idx + budget + 1 := by
  intro budget
  induction budget with
  | zero =>
    intro idx
    rw [generate_loop]
    cases oracle idx with
    | error e => show idx + 1 ≤ idx + 0 + 1; omega
    | ok choices =>
      simp only []
      split
      · split
        · show idx + 1 ≤ idx + 0 + 1; omega
        · show idx + 1 ≤ idx + 0 + 1; omega
      · split
        · show idx + 1 ≤ idx + 0 + 1; omega
        · show idx + 1 ≤ idx + 0 + 1; omega
  | succ b ih =>
    intro idx
    rw [generate_loop]
    cases oracle idx with
    | error e => show idx + 1 ≤ idx + (b + 1) + 1; omega
    | ok choices =>
      simp only []
      split
      · split
        · show idx + 1 ≤ idx + (b + 1) + 1; omega
        · exact le_trans (ih (idx + 1)) (by omega)
      · split
        · show idx + 1 ≤ idx + (b + 1) + 1; omega
        · split
          · exact le_trans (ih (idx + 1)) (by omega)
          · split
            · exact le_trans (ih (idx + 1)) (by omega)
            · show idx + 1 ≤ idx + (b + 1) + 1; omega

/-- C5: the generation retry loop terminates (it is a total function of the
oracle outcomes) and issues at most N+1 = 4 model calls — invocations of
`make_api_request` — for the configured retry ceiling N = 3, regardless of
validation failures or type mismatches. -/
theorem generation_retry_bound :
    ∀ (type_hint model : String) (attempts : Nat → Nat → HttpAttempt),
      (generate_conventional_commit_with_model type_hint model attempts).2 ≤ 3 + 1 := by
  intro type_hint model attempts
  simpa using generate_loop_calls_le type_hint
    (fun idx => make_api_request model (attempts idx)) 3 0

/-! ### Supporting lemmas for the prompt diff-content budget -/

theorem select_important_lines_length (max_lines : Nat) :
    ∀ (ls acc : List String), acc.length ≤ max_lines →
      (select_important_lines max_lines ls acc).length ≤ max_lines := by
  intro ls
  induction ls with
  | nil => intro acc h; simpa [select_important_lines] using h
  | cons l rest ih =>
    intro acc h
    simp only [select_important_lines]
    split
    · simpa using h
    · rename_i hlt
      split
      · exact ih _ (by simp; omega)
      · exact ih _ h

theorem fill_context_lines_length (max_lines : Nat) :
    ∀ (ls acc : List String), acc.length ≤ max_lines →
      (fill_context_lines max_lines ls acc).length ≤ max_lines := by
  intro ls
  induction ls with
  | nil => intro acc h; simpa [fill_context_lines] using h
  | cons l rest ih =>
    intro acc h
    simp only [fill_context_lines]
    split
    · simpa using h
    · rename_i hlt
      split
      · exact ih _ (by simp; omega)
      · exact ih _ h

theorem select_important_lines_forall (max_lines : Nat) (P : String → Prop) :
    ∀ (ls acc : List String), (∀ x ∈ acc, P x) → (∀ x ∈ ls, P x) →
      ∀ x ∈ select_important_lines max_lines ls acc, P x := by
  intro ls
  induction ls with
  | nil => intro acc ha _ x hx; exact ha x (by simpa [select_important_lines] using hx)
  | cons l rest ih =>
    intro acc ha hl x hx
    simp only [select_important_lines] at hx
    split at hx
    · exact ha x hx
    · split at hx
      · refine ih _ ?_ (fun y hy => hl y (List.mem_cons_of_mem l hy)) x hx
        intro y hy
        rcases List.mem_append.mp hy with hy | hy
        · exact ha y hy
        · rw [List.mem_singleton.mp hy]
          exact hl l (List.mem_cons_self l rest)
      · exact ih _ ha (fun y hy => hl y (List.mem_cons_of_mem l hy)) x hx

theorem fill_context_lines_forall (max_lines : Nat) (P : String → Prop) :
    ∀ (ls acc : List String), (∀ x ∈ acc, P x) → (∀ x ∈ ls, P x) →
      ∀ x ∈ fill_context_lines max_lines ls acc, P x := by
  intro ls
  induction ls with
  | nil => intro acc ha _ x hx; exact ha x (by simpa [fill_context_lines] using hx)
  | cons l rest ih =>
    intro acc ha hl x hx
    simp only [fill_context_lines] at hx
    split at hx
    · exact ha x hx
    · split at hx
      · refine ih _ ?_ (fun y hy => hl y (List.mem_cons_of_mem l hy)) x hx
        intro y hy
        rcases List.mem_append.mp hy with hy | hy
        · exact ha y hy
        · rw [List.mem_singleton.mp hy]
          exact hl l (List.mem_cons_self l rest)
      · exact ih _ ha (fun y hy => hl y (List.mem_cons_of_mem l hy)) x hx

theorem splitNlL_cons (c : Char) (rest : List Char) :
    splitNlL (c :: rest)
      = if c = '\n' then [] :: splitNlL rest
        else
          match splitNlL rest with
          | [] => [[c]]
          | h :: t => (c :: h) :: t := rfl

theorem splitNlL_ne_nil (cs : List Char) : splitNlL cs ≠ [] := by
  induction cs with
  | nil => simp [splitNlL]
  | cons c rest ih =>
    rw [splitNlL_cons]
    split
    · simp
    · cases hsp : splitNlL rest with
      | nil => exact absurd hsp ih
      | cons h t => simp

theorem splitNlL_parts_no_nl (cs : List Char) : ∀ p ∈ splitNlL cs, '\n' ∉ p := by
  induction cs with
  | nil =>
    intro p hp
    simp only [splitNlL, List.foldr_nil, List.mem_singleton] at hp
    simp [hp]
  | cons c rest ih =>
    intro p hp
    rw [splitNlL_cons] at hp
    split at hp
    · rcases List.mem_cons.mp hp with hp | hp
      · simp [hp]
      · exact ih p hp
    · rename_i hc
      rcases hsp : splitNlL rest with _ | ⟨h, t⟩
      · exact absurd hsp (splitNlL_ne_nil rest)
      · rw [hsp] at hp
        rcases List.mem_cons.mp hp with hp | hp
        · subst hp
          intro hm
          rcases List.mem_cons.mp hm with hm | hm
          · exact hc hm.symm
          · exact ih h (by rw [hsp]; exact List.mem_cons_self h t) hm
        · exact ih p (by rw [hsp]; exact List.mem_cons_of_mem h hp)

theorem rustLines_no_nl (s : String) : ∀ l ∈ rustLines s, '\n' ∉ l.data := by
  intro l hl
  simp only [rustLines, List.mem_map] at hl
  obtain ⟨p, hp, rfl⟩ := hl
  show '\n' ∉ p
  simp only [rustLinesL] at hp
  split at hp
  · exact absurd hp (List.not_mem_nil p)
  · simp only [List.mem_map] at hp
    obtain ⟨q, hq, rfl⟩ := hp
    have hq2 : q ∈ splitNlL s.data := by
      split at hq
      · exact List.dropLast_subset _ hq
      · exact hq
    have hnl := splitNlL_parts_no_nl s.data q hq2
    intro hm
    apply hnl
    simp only [stripCrL] at hm
    split at hm
    · exact List.dropLast_subset _ hm
    · exact hm

theorem splitNlL_append_nl (x r : List Char) (h : '\n' ∉ x) :
    splitNlL (x ++ '\n' :: r) = x :: splitNlL r := by
  induction x with
  | nil => simp [splitNlL]
  | cons c cs ih =>
    have hc : c ≠ '\n' := fun he => h (he ▸ List.mem_cons_self c cs)
    have hcs : '\n' ∉ cs := fun hm => h (List.mem_cons_of_mem c hm)
    simp only [List.cons_append, splitNlL, List.foldr_cons] at *
    rw [ih hcs, if_neg hc]

theorem splitNlL_joinNl (ls : List (List Char)) (h : ∀ x ∈ ls, '\n' ∉ x) (hne : ls ≠ []) :
    splitNlL (joinNlL ls) = ls := by
  match ls, hne with
  | [x], _ => exact splitNlL_no_nl x (h x (List.mem_singleton_self x))
  | x :: y :: xs, _ =>
    show splitNlL (x ++ '\n' :: joinNlL (y :: xs)) = x :: (y :: xs)
    rw [splitNlL_append_nl x _ (h x (List.mem_cons_self x _))]
    rw [splitNlL_joinNl (y :: xs) (fun z hz => h z (List.mem_cons_of_mem x hz)) (by simp)]

theorem rustLines_joinNl_length_le (ls : List String) (h : ∀ x ∈ ls, '\n' ∉ x.data) :
    (rustLines (joinNl ls)).length ≤ ls.length := by
  rcases hls : ls with _ | ⟨x, xs⟩
  · simp [joinNl, joinNlL, rustLines, rustLinesL]
  · rw [← hls]
    simp only [rustLines, joinNl, List.length_map, rustLinesL]
    split
    · simp
    · have hsp : splitNlL (joinNlL (ls.map String.data)) = ls.map String.data := by
        refine splitNlL_joinNl _ ?_ (by simp [hls])
        intro z hz
        obtain ⟨s, hs, rfl⟩ := List.mem_map.mp hz
        exact h s hs
      rw [hsp]
      split
      · simp only [List.length_map, List.length_dropLast]
        omega
      · simp

theorem extract_meaningful_diff_lines_count (content : String) (n : Nat) :
    (rustLines (extract_meaningful_diff_lines content n)).length ≤ n := by
  simp only [extract_meaningful_diff_lines]
  set sel1 := select_important_lines n (rustLines content) [] with hsel1
  set sel2 := fill_context_lines n (rustLines content) sel1 with hsel2
  have hlen : sel2.length ≤ n := by
    refine fill_context_lines_length n _ _ ?_
    exact select_important_lines_length n _ _ (by simp)
  have hnl : ∀ x ∈ sel2, '\n' ∉ x.data := by
    refine fill_context_lines_forall n _ _ _ ?_ (rustLines_no_nl content)
    refine select_important_lines_forall n _ _ _ ?_ (rustLines_no_nl content)
    intro x hx
    exact absurd hx (List.not_mem_nil x)
  exact le_trans (rustLines_joinNl_length_le sel2 hnl) hlen

theorem calculate_diff_lines_le_remaining (file : ModifiedFile) (current_total max_total : Nat) :
    calculate_diff_lines_for_file file current_total max_total ≤ max_total - current_total := by
  simp only [calculate_diff_lines_for_file]
  split
  · exact min_le_right _ _
  split
  · exact le_trans (min_le_left _ _) (min_le_right _ _)
  · exact min_le_right _ _

theorem diff_section_loop_length : ∀ (ls : List ModifiedFile) (i total : Nat),
    (diff_section_loop ls i total).length ≤ 15 - i := by
  intro ls
  induction ls with
  | nil => intro i total; simp [diff_section_loop]
  | cons f rest ih =>
    intro i total
    simp only [diff_section_loop]
    split
    · simp
    · rename_i hcond
      simp only [Bool.or_eq_true, decide_eq_true_eq, not_or, not_le] at hcond
      obtain ⟨hi, _⟩ := hcond
      split
      · have := ih (i + 1) (total + (rustLines (extract_meaningful_diff_lines f.diff_content
          (calculate_diff_lines_for_file f total MAX_TOTAL_DIFF_LINES))).length)
        simp only [List.length_cons]
        omega
      · have := ih (i + 1) total
        simp only [List.length_cons]
        omega

theorem diff_section_loop_budget : ∀ (ls : List ModifiedFile) (i total : Nat),
    total ≤ MAX_TOTAL_DIFF_LINES →
    total + (((diff_section_loop ls i total).map (fun e => (rustLines e.2).length)).sum)
      ≤ MAX_TOTAL_DIFF_LINES := by
  intro ls
  induction ls with
  | nil => intro i total h; simpa [diff_section_loop] using h
  | cons f rest ih =>
    intro i total h
    simp only [diff_section_loop]
    split
    · simpa using h
    · rename_i hcond
      simp only [Bool.or_eq_true, decide_eq_true_eq, not_or, not_le] at hcond
      obtain ⟨_, htot⟩ := hcond
      split
      · rename_i hne
        simp only [List.map_cons, List.sum_cons]
        have hcnt : (rustLines (extract_meaningful_diff_lines f.diff_content
            (calculate_diff_lines_for_file f total MAX_TOTAL_DIFF_LINES))).length
            ≤ MAX_TOTAL_DIFF_LINES - total :=
          le_trans (extract_meaningful_diff_lines_count _ _)
            (calculate_diff_lines_le_remaining f total MAX_TOTAL_DIFF_LINES)
        have hrec := ih (i + 1)
          (total + (rustLines (extract_meaningful_diff_lines f.diff_content
            (calculate_diff_lines_for_file f total MAX_TOTAL_DIFF_LINES))).length)
          (by omega)
        omega
      · simp only [List.map_cons, List.sum_cons]
        have hrec := ih (i + 1) total h
        have : (rustLines ("" : String)).length = 0 := by simp [rustLines, rustLinesL]
        omega

theorem diff_section_loop_mem : ∀ (ls : List ModifiedFile) (i total : Nat)
    (e : ModifiedFile × String), e ∈ diff_section_loop ls i total → e.1 ∈ ls := by
  intro ls
  induction ls with
  | nil => intro i total e he; simp [diff_section_loop] at he
  | cons f rest ih =>
    intro i total e he
    simp only [diff_section_loop] at he
    split at he
    · exact absurd he (List.not_mem_nil e)
    · split at he
      · rcases List.mem_cons.mp he with he | he
        · rw [he]; exact List.mem_cons_self f rest
        · exact List.mem_cons_of_mem f (ih _ _ e he)
      · rcases List.mem_cons.mp he with he | he
        · rw [he]; exact List.mem_cons_self f rest
        · exact List.mem_cons_of_mem f (ih _ _ e he)

/-! ### Claim C4 -/

/-- C4: the diff-content section renders at most 15 files, the total number
of diff lines included never exceeds the 3000-line budget (each file's
allotment never exceeds the remaining budget), and no auto-generated/boring
file is ever included. -/
theorem diff_section_budget_respected :
    ∀ files : List ModifiedFile,
      (diff_section_entries files).length ≤ 15 ∧
      (((diff_section_entries files).map (fun e => (rustLines e.2).length)).sum ≤ 3000) ∧
      (∀ e ∈ diff_section_entries files, is_auto_generated_or_boring_file e.1.path = false) ∧
      (∀ (file : ModifiedFile) (current_total : Nat),
        calculate_diff_lines_for_file file current_total MAX_TOTAL_DIFF_LINES
          ≤ MAX_TOTAL_DIFF_LINES - current_total) := by
  intro files
  refine ⟨?_, ?_, ?_, fun file ct => calculate_diff_lines_le_remaining file ct _⟩
  · simpa using diff_section_loop_length (get_important_files_for_diff files) 0 0
  · simpa using diff_section_loop_budget (get_important_files_for_diff files) 0 0 (by simp [MAX_TOTAL_DIFF_LINES])
  · intro e he
    have hmem := diff_section_loop_mem (get_important_files_for_diff files) 0 0 e he
    simp only [get_important_files_for_diff, List.mem_filter] at hmem
    simpa using hmem.2

/-- A concrete source file for the C4 witness. -/
def c4_file : ModifiedFile :=
  { path := "src/a.rs", added_lines := 1, removed_lines := 0,
    diff_content := "+let x = 1;", file_type := FileType.SourceCode, change_hints := [] }

/-- Witness for C4 at a concrete file list. -/
theorem diff_section_budget_respected_witness :
    (diff_section_entries [c4_file]).length ≤ 15 ∧
    (((diff_section_entries [c4_file]).map (fun e => (rustLines e.2).length)).sum ≤ 3000) ∧
    is_auto_generated_or_boring_file c4_file.path = false :=
  ⟨(diff_section_budget_respected [c4_file]).1,
   (diff_section_budget_respected [c4_file]).2.1,
   (diff_section_budget_respected [c4_file]).2.2.1 (c4_file, "+let x = 1;") (by decide)⟩

/-! ### Claim C9 (corrected) -/

/-- A diff with exactly one metadata-new file (zero removed lines, more than
10 added lines), refuting the claimed 0.5 impact. -/
def c9_diff : DiffInfo :=
  { files := [{ path := "m.rs", added_lines := 20, removed_lines := 0, diff_content := "",
                file_type := FileType.SourceCode, change_hints := [] }],
    summary := "" }

/-- C9 counterexample: with exactly one new file the emitted NewFilePattern
has impact 0.8 (`min(0.7 + 1·0.1, 1.0)`), not 0.5 as claimed. -/
theorem new_file_impact_counterexample :
    (analyse_file_metadata c9_diff).new_files.length = 1 ∧
    (detect_universal_patterns c9_diff).head?
      = some ⟨PatternType.NewFilePattern, "1 new file introduced",
              calculate_new_file_impact ["m.rs"], ["m.rs"]⟩ ∧
    calculate_new_file_impact ["m.rs"] = 4/5 ∧
    ¬ ((4 : ℚ)/5 = 1/2) := by
  refine ⟨rfl, rfl, ?_, by norm_num⟩
  simp only [calculate_new_file_impact, List.length_singleton]
  rw [min_eq_left (by norm_num)]
  norm_num

/-- C9 amended: whenever at least one file is metadata-classified as new,
`detect_universal_patterns` emits a NewFilePattern whose impact is
`calculate_new_file_impact` of the new files — 0.8 for exactly one new file,
monotonically non-decreasing in the number of new files, and saturating at
1.0 once three or more files are new. -/
theorem new_file_pattern_impact :
    (∀ diff : DiffInfo, (analyse_file_metadata diff).new_files ≠ [] →
      ∃ p ∈ detect_universal_patterns diff,
        p.pattern_type = PatternType.NewFilePattern ∧
        p.impact = calculate_new_file_impact (analyse_file_metadata diff).new_files) ∧
    (∀ l1 l2 : List String, l1.length ≤ l2.length →
      calculate_new_file_impact l1 ≤ calculate_new_file_impact l2) ∧
    (∀ s : String, calculate_new_file_impact [s] = 4/5) ∧
    (∀ l : List String, 3 ≤ l.length → calculate_new_file_impact l = 1) := by
  refine ⟨?_, ?_, ?_, ?_⟩
  · intro diff h
    refine ⟨{ pattern_type := PatternType.NewFilePattern,
              description := toString (analyse_file_metadata diff).new_files.length
                ++ " new file" ++ pluralS (analyse_file_metadata diff).new_files.length
                ++ " introduced",
              impact := calculate_new_file_impact (analyse_file_metadata diff).new_files,
              files_affected := (analyse_file_metadata diff).new_files }, ?_, rfl, rfl⟩
    simp only [detect_universal_patterns]
    iterate 12 apply List.mem_append_left
    rw [show (!(analyse_file_metadata diff).new_files.isEmpty) = true by
      simp [List.isEmpty_iff, h]]
    simp
  · intro l1 l2 h
    simp only [calculate_new_file_impact]
    refine min_le_min ?_ le_rfl
    have hc : (l1.length : ℚ) ≤ (l2.length : ℚ) := by exact_mod_cast h
    linarith
  · intro s
    simp only [calculate_new_file_impact, List.length_singleton]
    rw [min_eq_left (by norm_num)]
    norm_num
  · intro l h
    simp only [calculate_new_file_impact]
    rw [min_eq_right]
    have hc : (3 : ℚ) ≤ (l.length : ℚ) := by exact_mod_cast h
    linarith

/-- Witness for C9's amended theorem at concrete inputs. -/
theorem new_file_pattern_impact_witness :
    (∃ p ∈ detect_universal_patterns c9_diff,
      p.pattern_type = PatternType.NewFilePattern ∧
      p.impact = calculate_new_file_impact (analyse_file_metadata c9_diff).new_files) ∧
    calculate_new_file_impact ["a"] ≤ calculate_new_file_impact ["a", "b"] ∧
    calculate_new_file_impact ["a"] = 4/5 ∧
    calculate_new_file_impact ["a", "b", "c"] = 1 :=
  ⟨new_file_pattern_impact.1 c9_diff (by decide),
   new_file_pattern_impact.2.1 ["a"] ["a", "b"] (by decide),
   new_file_pattern_impact.2.2.1 "a",
   new_file_pattern_impact.2.2.2 ["a", "b", "c"] (by decide)⟩

/-! ### Claim C1 -/

/-- C1: appending a pattern with impact in [0,1] never decreases
`calculate_pattern_complexity`; for pattern lists whose impacts lie in
[0,1] the complexity lies in [0,5]; and `determine_body_requirement` returns
`true` whenever the complexity score passed to it is at least 2.5. -/
theorem complexity_monotone_clamped_and_body_threshold :
    (∀ (ps : List Pattern) (p : Pattern), 0 ≤ p.impact → p.impact ≤ 1 →
      calculate_pattern_complexity ps ≤ calculate_pattern_complexity (ps ++ [p])) ∧
    (∀ ps : List Pattern, (∀ q ∈ ps, 0 ≤ q.impact ∧ q.impact ≤ 1) →
      0 ≤ calculate_pattern_complexity ps ∧ calculate_pattern_complexity ps ≤ 5) ∧
    (∀ (ps : List Pattern) (score : ℚ) (diff : DiffInfo), 5/2 ≤ score →
      determine_body_requirement ps score diff = true) := by
  refine ⟨?_, ?_, ?_⟩
  · intro ps p h0 _h1
    simp only [calculate_pattern_complexity]
    refine min_le_min ?_ le_rfl
    have hlen : (((ps ++ [p]).length : ℚ)) = (ps.length : ℚ) + 1 := by
      push_cast [List.length_append, List.length_singleton]
      ring
    have hsum : (((ps ++ [p]).map (fun q => q.impact)).sum)
        = (ps.map (fun q => q.impact)).sum + p.impact := by
      simp
    rw [hlen, hsum]
    linarith
  · intro ps h
    constructor
    · simp only [calculate_pattern_complexity]
      refine le_min ?_ (by norm_num)
      have hsum : 0 ≤ (ps.map (fun q => q.impact)).sum := by
        refine List.sum_nonneg ?_
        intro x hx
        obtain ⟨q, hq, rfl⟩ := List.mem_map.mp hx
        exact (h q hq).1
      have hlen : (0:ℚ) ≤ (ps.length : ℚ) := by positivity
      linarith
    · simp only [calculate_pattern_complexity]
      exact min_le_right _ _
  · intro ps score diff h
    simp only [determine_body_requirement]
    rw [if_pos h]

/-- Witness for C1 at concrete inputs. -/
theorem complexity_monotone_clamped_and_body_threshold_witness :
    (calculate_pattern_complexity []
        ≤ calculate_pattern_complexity ([] ++ [⟨PatternType.FeatureAddition, "", 1/2, []⟩]))
    ∧ (0 ≤ calculate_pattern_complexity [⟨PatternType.FeatureAddition, "", 1/2, []⟩]
        ∧ calculate_pattern_complexity [⟨PatternType.FeatureAddition, "", 1/2, []⟩] ≤ 5)
    ∧ determine_body_requirement [] 3 ⟨[], ""⟩ = true :=
  ⟨complexity_monotone_clamped_and_body_threshold.1 [] _ (by norm_num) (by norm_num),
   complexity_monotone_clamped_and_body_threshold.2.1 _ (by
      intro q hq
      simp only [List.mem_singleton] at hq
      subst hq
      norm_num),
   complexity_monotone_clamped_and_body_threshold.2.2 [] 3 ⟨[], ""⟩ (by norm_num)⟩

/-! ### Claim C6 -/

/-- C6: `classify_file_type` is total — it returns one of the six kinds for
every path — and the test predicate is checked first, so any path matching a
test-like fragment classifies as `Test` regardless of the later predicates. -/
theorem classify_file_type_total_test_first :
    (∀ path : String,
      classify_file_type path = FileType.SourceCode
      ∨ classify_file_type path = FileType.Test
      ∨ classify_file_type path = FileType.Documentation
      ∨ classify_file_type path = FileType.Config
      ∨ classify_file_type path = FileType.Build
      ∨ classify_file_type path = FileType.Other) ∧
    (∀ path : String,
      (rustContains (rustToLower path) "test"
        || rustContains (rustToLower path) "spec"
        || rustEndsWith (rustToLower path) ".test.js"
        || rustEndsWith (rustToLower path) ".spec.js"
        || rustEndsWith (rustToLower path) ".test.ts"
        || rustEndsWith (rustToLower path) ".spec.ts"
        || rustEndsWith (rustToLower path) "tests.cs"
        || rustEndsWith (rustToLower path) "test.cs"
        || rustContains (rustToLower path) "__tests__"
        || rustContains (rustToLower path) ".tests/"
        || rustEndsWith (rustToLower path) "_test.py"
        || rustEndsWith (rustToLower path) "_test.rs") = true →
      classify_file_type path = FileType.Test) := by
  constructor
  · intro path
    simp only [classify_file_type]
    split
    · exact Or.inr (Or.inl rfl)
    split
    · exact Or.inr (Or.inr (Or.inl rfl))
    split
    · exact Or.inr (Or.inr (Or.inr (Or.inl rfl)))
    split
    · exact Or.inr (Or.inr (Or.inr (Or.inr (Or.inl rfl))))
    split
    · exact Or.inl rfl
    · exact Or.inr (Or.inr (Or.inr (Or.inr (Or.inr rfl))))
  · intro path h
    simp only [classify_file_type]
    rw [if_pos h]

/-- Witness for C6: `tests/config.json` matches both the test and the config
predicates and classifies as `Test`. -/
theorem classify_file_type_total_test_first_witness :
    classify_file_type "tests/config.json" = FileType.Test :=
  classify_file_type_total_test_first.2 "tests/config.json" (by decide)

/-! ### Claim C7 -/

/-- C7: `analyse_change_hints` always returns a non-empty hint list; for a
new file it returns exactly NewFeature followed by MajorAddition. -/
theorem analyse_change_hints_nonempty :
    ∀ (content : String) (is_new_file : Bool),
      (is_new_file = true →
        analyse_change_hints content is_new_file
          = [ChangeHint.NewFeature, ChangeHint.MajorAddition])
      ∧ analyse_change_hints content is_new_file ≠ [] := by
  intro content is_new_file
  cases is_new_file with
  | true => exact ⟨fun _ => rfl, by simp [analyse_change_hints]⟩
  | false =>
    refine ⟨fun h => by simp at h, ?_⟩
    simp only [analyse_change_hints, Bool.false_eq_true, if_false]
    split
    · simp
    · rename_i hne
      simpa [List.isEmpty_iff] using hne

/-- Witness for C7 at concrete inputs. -/
theorem analyse_change_hints_nonempty_witness :
    analyse_change_hints "" true = [ChangeHint.NewFeature, ChangeHint.MajorAddition]
    ∧ analyse_change_hints "" false ≠ [] :=
  ⟨(analyse_change_hints_nonempty "" true).1 rfl, (analyse_change_hints_nonempty "" false).2⟩

/-! ### Claim C10 -/

/-- C10: the verdict of `validate_commit_message` depends only on the first
line — two non-empty messages with the same first line validate identically,
so body lines after the first never change acceptance. -/
theorem validate_first_line_only :
    ∀ m1 m2 : String, m1 ≠ "" → m2 ≠ "" →
      (rustLines m1).head? = (rustLines m2).head? →
      validate_commit_message m1 = validate_commit_message m2 := by
  intro m1 m2 _ _ h
  simp only [validate_commit_message]
  rw [h]

/-- Witness for C10: appending a bullet body does not change the verdict. -/
theorem validate_first_line_only_witness :
    validate_commit_message "feat: add login"
      = validate_commit_message "feat: add login\n\n- Add provider support" :=
  validate_first_line_only _ _ (by decide) (by decide) (by decide)

end CommitWizard
